import Mathlib

/-!
# Verification of the cluster-identity bootstrap (`lib/auth/init.go`)

A shallow embedding of the bootstrap procedure of `lib/auth/init.go`:
`Init`, `InitKeys`, `writeKeys`, `ReadKeys`, `HaveKeys`, `InitSecret`,
`ReadSecret`, together with the path helpers `secretKeyPath`, `keysPath`
and `pathExists`.

The embedding threads an explicit `World` — the replicated backend, the
local filesystem, the cluster-lock table and an event trace — through a
small state-with-errors monad `M`.  External collaborators (the
authority's key/cert generation, the lemma `secret` package, and
`session.DecodeSID`) are modelled as deterministic oracles gathered in
an `Env` record; the theorems quantify over the oracle wherever the Go
code treats the collaborator as opaque.

Conventions:
* Go byte slices and opaque cryptographic material are `String`s.
* A Go `error` result is an `Except Failure` value; `Failure.err`
  carries an `Err` (the error taxonomy actually distinguished by the
  source: `*teleport.NotFoundError`, `os.IsNotExist` errors,
  `fmt.Errorf` messages, the lock-service timeout, backend failures,
  `session.DecodeSID` failures, and `trace.Wrap`), and `Failure.crash`
  is a Go runtime panic (nil-pointer dereference).
* `cfg.AllowedTokens` is a `map[string]string` in Go; the embedding
  fixes one iteration order by using an association list.
-/

deriving instance DecidableEq for Except

namespace TP

/-- `services.CA`: a certificate-authority keypair, opaque public and
private material. -/
structure CA where
  pub : String
  priv : String
deriving DecidableEq, Repr

/-- `services.RemoteCert`: a trusted remote certificate record. -/
structure RemoteCert where
  rtype : String
  fqdn : String
  value : String
deriving DecidableEq, Repr

/-- The error values `Init` and its helpers distinguish. `wrap` is
`trace.Wrap` around a non-nil Go error; `wrapNil` is `trace.Wrap`
applied to a nil `error` variable. -/
inductive Err where
  | notFound (msg : String)
  | osNotExist (path : String)
  | errorf (msg : String)
  | lockTimeout (name : String)
  | backendErr (msg : String)
  | decodeErr (msg : String)
  | wrap (inner : Err)
  | wrapNil
deriving DecidableEq, Repr

/-- How a run of a bootstrap function ends abnormally: a returned Go
`error`, or a runtime panic (the nil-pointer dereference reachable in
the user-CA block). -/
inductive Failure where
  | err (e : Err)
  | crash (msg : String)
deriving DecidableEq, Repr

/-- Trace events recording every side effect a run performs, used to
state "performs no generation" and "the first-start-gated section ran".
`firstStartProvisioning` is emitted exactly when control enters the
`if firstStart` block of `Init`. -/
inductive Event where
  | mkdir (dir : String)
  | lockAcquired (name : String)
  | lockReleased (name : String)
  | genSecretKey
  | fileWrite (path : String)
  | upsertHostCA
  | resetHostCA
  | upsertUserCA
  | resetUserCA
  | firstStartProvisioning
  | tokenUpsert (pid : String) (fqdn : String)
  | remoteCertUpsert (fqdn : String)
  | genKeyPair
  | genHostCert
deriving DecidableEq, Repr

/-- A file on disk: contents plus the permission bits it was created
with. -/
structure FileData where
  content : String
  perm : Nat
deriving DecidableEq, Repr

/-- The local filesystem: an association list of files and the set of
directories that exist. -/
structure FS where
  entries : List (String × FileData)
  dirs : List String
deriving DecidableEq, Repr

/-- The replicated backend as seen through the CA/provisioning/web
services.  `hostCAFault`/`userCAFault` inject a non-`NotFound` backend
failure into the corresponding public-key probe (the probe's only
not-found condition is the absence of the stored CA itself). -/
structure Backend where
  hostCA : Option CA
  userCA : Option CA
  hostCAFault : Option String
  userCAFault : Option String
  tokens : List (String × String × Nat)
  remoteCerts : List (RemoteCert × Nat)
deriving DecidableEq, Repr

/-- The full mutable state a run of `Init` can touch. -/
structure World where
  backend : Backend
  fs : FS
  locks : List String
  log : List Event
deriving DecidableEq, Repr

/-- The sealing service of the lemma `secret` package, holding the key
material it was built from (`secret.New(&secret.Config{KeyBytes: key})`).
`secret.EncodedStringToKey`/`KeyToEncodedString` are modelled as the
identity on the encoded string. -/
structure Secret where
  keyBytes : String
deriving DecidableEq, Repr

/-- `sshutils.NewSigner(key, cert)`: a signer built from the persisted
key and certificate bytes. -/
structure Signer where
  key : String
  cert : String
deriving DecidableEq, Repr

/-- The part of `AuthServer` state that `Init` itself constructs
(`NewAuthServer(cfg.Backend, cfg.Authority, scrt)`); the backend lives
in `World`, the authority in `Env`. -/
structure AuthServer where
  scrt : Secret
deriving DecidableEq, Repr

/-- External collaborators, modelled as deterministic oracles:
generation of fresh secret keys, fresh CAs (`ResetHostCA ""`,
`ResetUserCA ""`), key pairs (`GenerateKeyPair ""`), host certificates
(`GenerateHostCert pub id hostname ttl`) and `session.DecodeSID`. -/
structure Env where
  freshSecretKey : String
  freshHostCA : CA
  freshUserCA : CA
  genKeyPair : String × String
  genHostCert : String → String → String → Nat → String
  decodeSID : String → String → Except Err String

/-- `InitConfig` from `lib/auth/init.go` (backend and authority are
modelled in `World` and `Env`). -/
structure InitConfig where
  FQDN : String
  AuthDomain : String
  DataDir : String
  SecretKey : String
  AllowedTokens : List (String × String)
  TrustedAuthorities : List RemoteCert
  HostCA : Option CA
  UserCA : Option CA

/-- The run monad: explicit `World` passing with an `Except`-style
result; the post-state is available on failure as well, because partial
progress persists (§ "partial progress already persisted is NOT rolled
back"). -/
def M (α : Type) : Type := World → Except Failure α × World

def M.pure (a : α) : M α := fun w => (Except.ok a, w)

def M.bind (x : M α) (f : α → M β) : M β := fun w =>
  match x w with
  | (Except.ok a, w') => f a w'
  | (Except.error e, w') => (Except.error e, w')

instance : Monad M where
  pure := M.pure
  bind := M.bind

@[simp] theorem M.bind_apply (x : M α) (f : α → M β) (w : World) :
    (x >>= f) w =
      match x w with
      | (Except.ok a, w') => f a w'
      | (Except.error e, w') => (Except.error e, w') := rfl

@[simp] theorem M.pure_apply (a : α) (w : World) :
    (Pure.pure a : M α) w = (Except.ok a, w) := rfl

/-- Read the current world (used to model probes that inspect backend
state without mutating it). -/
def getW : M World := fun w => (Except.ok w, w)

@[simp] theorem getW_apply (w : World) : getW w = (Except.ok w, w) := rfl

/-- Abort the run: a returned Go error or a panic. -/
def throwE (f : Failure) : M α := fun w => (Except.error f, w)

@[simp] theorem throwE_apply (f : Failure) (w : World) :
    (throwE f : M α) w = (Except.error f, w) := rfl

/-- Append an event to the trace. -/
def emit (e : Event) : M Unit := fun w =>
  (Except.ok (), { w with log := w.log ++ [e] })

@[simp] theorem emit_apply (e : Event) (w : World) :
    emit e w = (Except.ok (), { w with log := w.log ++ [e] }) := rfl

/-- Association-list lookup for the filesystem. -/
def lookupFile : List (String × FileData) → String → Option FileData
  | [], _ => none
  | (q, d) :: rest, p => if p = q then some d else lookupFile rest p

/-- Association-list update (overwrite or append) for the filesystem. -/
def setFile : List (String × FileData) → String → FileData → List (String × FileData)
  | [], p, d => [(p, d)]
  | (q, e) :: rest, p, d =>
    if p = q then (p, d) :: rest else (q, e) :: setFile rest p d

/-- `pathExists` from `init.go`: `os.Stat`, with `os.IsNotExist`
reported as a clean `false` (other `Stat` failures are not modelled). -/
def pathExists (p : String) : M Bool := fun w =>
  (Except.ok (lookupFile w.fs.entries p).isSome, w)

@[simp] theorem pathExists_apply (p : String) (w : World) :
    pathExists p w = (Except.ok (lookupFile w.fs.entries p).isSome, w) := rfl

/-- `ioutil.ReadFile`: the error on an absent path is the `os`
not-exist error. -/
def readFile (p : String) : M String := fun w =>
  match lookupFile w.fs.entries p with
  | some fd => (Except.ok fd.content, w)
  | none => (Except.error (Failure.err (Err.osNotExist p)), w)

theorem readFile_apply (p : String) (w : World) :
    readFile p w =
      match lookupFile w.fs.entries p with
      | some fd => (Except.ok fd.content, w)
      | none => (Except.error (Failure.err (Err.osNotExist p)), w) := rfl

/-- `ioutil.WriteFile` with the given permission bits. -/
def writeFile (p content : String) (perm : Nat) : M Unit := fun w =>
  (Except.ok (),
    { w with
      fs := { w.fs with entries := setFile w.fs.entries p ⟨content, perm⟩ },
      log := w.log ++ [Event.fileWrite p] })

@[simp] theorem writeFile_apply (p content : String) (perm : Nat) (w : World) :
    writeFile p content perm w =
      (Except.ok (),
        { w with
          fs := { w.fs with entries := setFile w.fs.entries p ⟨content, perm⟩ },
          log := w.log ++ [Event.fileWrite p] }) := rfl

/-- `os.MkdirAll(cfg.DataDir, os.ModeDir|0777)`: creates the directory
when absent, does nothing when it already exists. -/
def mkdirAll (dir : String) : M Unit := fun w =>
  if dir ∈ w.fs.dirs then (Except.ok (), w)
  else
    (Except.ok (),
      { w with
        fs := { w.fs with dirs := dir :: w.fs.dirs },
        log := w.log ++ [Event.mkdir dir] })

theorem mkdirAll_apply (dir : String) (w : World) :
    mkdirAll dir w =
      if dir ∈ w.fs.dirs then (Except.ok (), w)
      else
        (Except.ok (),
          { w with
            fs := { w.fs with dirs := dir :: w.fs.dirs },
            log := w.log ++ [Event.mkdir dir] }) := rfl

/-- `lockService.AcquireLock(cfg.AuthDomain, 60*time.Second)`: in this
sequential model acquisition succeeds exactly when the lock is free,
and a held lock stands for the bounded wait expiring. -/
def acquireLock (name : String) : M Unit := fun w =>
  if name ∈ w.locks then (Except.error (Failure.err (Err.lockTimeout name)), w)
  else
    (Except.ok (),
      { w with locks := name :: w.locks, log := w.log ++ [Event.lockAcquired name] })

theorem acquireLock_apply (name : String) (w : World) :
    acquireLock name w =
      if name ∈ w.locks then (Except.error (Failure.err (Err.lockTimeout name)), w)
      else
        (Except.ok (),
          { w with locks := name :: w.locks, log := w.log ++ [Event.lockAcquired name] }) := rfl

/-- `lockService.ReleaseLock(cfg.AuthDomain)`. -/
def releaseLock (name : String) : M Unit := fun w =>
  (Except.ok (), { w with locks := w.locks.erase name, log := w.log ++ [Event.lockReleased name] })

@[simp] theorem releaseLock_apply (name : String) (w : World) :
    releaseLock name w =
      (Except.ok (), { w with locks := w.locks.erase name, log := w.log ++ [Event.lockReleased name] }) := rfl

/-- `defer lockService.ReleaseLock(...)`: the release runs on every
exit of the guarded body — normal return, error return, or panic. -/
def withRelease (name : String) (body : M α) : M α := fun w =>
  let r := body w
  let r' := releaseLock name r.2
  (r.1, r'.2)

theorem withRelease_apply (name : String) (body : M α) (w : World) :
    withRelease name body w =
      ((body w).1, (releaseLock name (body w).2).2) := rfl

/-- `asrv.GetHostCAPub()`: the probe of the host CA's public material.
Absence of the stored CA is `*teleport.NotFoundError`; an injected
fault is any other backend failure. -/
def GetHostCAPub (w : World) : Except Err String :=
  match w.backend.hostCAFault with
  | some msg => Except.error (Err.backendErr msg)
  | none =>
    match w.backend.hostCA with
    | some ca => Except.ok ca.pub
    | none => Except.error (Err.notFound "host ca not found")

/-- `asrv.GetUserCAPub()`. -/
def GetUserCAPub (w : World) : Except Err String :=
  match w.backend.userCAFault with
  | some msg => Except.error (Err.backendErr msg)
  | none =>
    match w.backend.userCA with
    | some ca => Except.ok ca.pub
    | none => Except.error (Err.notFound "user ca not found")

/-- `asrv.CAService.UpsertHostCA`. -/
def UpsertHostCA (ca : CA) : M Unit := fun w =>
  (Except.ok (),
    { w with backend := { w.backend with hostCA := some ca }, log := w.log ++ [Event.upsertHostCA] })

/-- `asrv.ResetHostCA("")`: empty discriminator, generate a fresh host
CA (generation via the `Env` oracle). -/
def ResetHostCA (env : Env) : M Unit := fun w =>
  (Except.ok (),
    { w with backend := { w.backend with hostCA := some env.freshHostCA }, log := w.log ++ [Event.resetHostCA] })

/-- `asrv.CAService.UpsertUserCA`. -/
def UpsertUserCA (ca : CA) : M Unit := fun w =>
  (Except.ok (),
    { w with backend := { w.backend with userCA := some ca }, log := w.log ++ [Event.upsertUserCA] })

/-- `asrv.ResetUserCA("")`. -/
def ResetUserCA (env : Env) : M Unit := fun w =>
  (Except.ok (),
    { w with backend := { w.backend with userCA := some env.freshUserCA }, log := w.log ++ [Event.resetUserCA] })

/-- `asrv.UpsertToken(pid, fqdn, ttl)`. -/
def UpsertToken (pid fqdn : String) (ttl : Nat) : M Unit := fun w =>
  (Except.ok (),
    { w with
      backend := { w.backend with tokens := w.backend.tokens ++ [(pid, fqdn, ttl)] },
      log := w.log ++ [Event.tokenUpsert pid fqdn] })

/-- `asrv.UpsertRemoteCert(cert, ttl)`. -/
def UpsertRemoteCert (rc : RemoteCert) (ttl : Nat) : M Unit := fun w =>
  (Except.ok (),
    { w with
      backend := { w.backend with remoteCerts := w.backend.remoteCerts ++ [(rc, ttl)] },
      log := w.log ++ [Event.remoteCertUpsert rc.fqdn] })

/-- `secretKeyPath`: `filepath.Join(dataDir, "teleport.secret")`. -/
def secretKeyPath (dataDir : String) : String := dataDir ++ "/teleport.secret"

/-- `keysPath`: `(dataDir/<fqdn>.key, dataDir/<fqdn>.cert)`. -/
def keysPath (fqdn dataDir : String) : String × String :=
  (dataDir ++ "/" ++ fqdn ++ ".key", dataDir ++ "/" ++ fqdn ++ ".cert")

/-- `ReadSecret`: read the secret file, decode the key, build the
sealing service.  The decode (`secret.EncodedStringToKey`) and the
construction (`secret.New`) are external and modelled as the identity
on the persisted string. -/
def ReadSecret (dataDir : String) : M Secret := do
  let keyPath := secretKeyPath dataDir
  let bytes ← readFile keyPath
  pure { keyBytes := bytes }

/-- `InitSecret`: create the secret file when absent (generating a key
when none is supplied), then always load via `ReadSecret`. -/
def InitSecret (env : Env) (dataDir secretKey : String) : M Secret := do
  let keyPath := secretKeyPath dataDir
  let ex ← pathExists keyPath
  if !ex then
    let sk ←
      if secretKey = "" then do
        emit Event.genSecretKey
        pure env.freshSecretKey
      else
        pure secretKey
    writeFile keyPath sk 0o600
  ReadSecret dataDir

/-- `writeKeys`: persist key and cert with permissions `0600`. -/
def writeKeys (fqdn dataDir key cert : String) : M Unit := do
  let (kp, cp) := keysPath fqdn dataDir
  writeFile kp key 0o600
  writeFile cp cert 0o600

/-- `ReadKeys`: read both files back and build the signer from the
persisted bytes. -/
def ReadKeys (fqdn dataDir : String) : M Signer := do
  let (kp, cp) := keysPath fqdn dataDir
  let key ← readFile kp
  let cert ← readFile cp
  pure { key := key, cert := cert }

/-- `HaveKeys`: both files exist. -/
def HaveKeys (fqdn dataDir : String) : M Bool := do
  let (kp, cp) := keysPath fqdn dataDir
  let ex ← pathExists kp
  if !ex then
    pure false
  else
    pathExists cp

/-- `InitKeys`: generate the node key pair and host certificate when
either file is missing (`GenerateKeyPair("")`,
`GenerateHostCert(pub, fqdn, fqdn, 0)`), then always read both files
back from disk. -/
def InitKeys (env : Env) (a : AuthServer) (fqdn dataDir : String) : M Signer := do
  if fqdn = "" then throwE (Failure.err (Err.errorf "fqdn can not be empty"))
  let (kp, cp) := keysPath fqdn dataDir
  let keyEx ← pathExists kp
  let certEx ← pathExists cp
  if !keyEx || !certEx then
    emit Event.genKeyPair
    let (k, pub) := env.genKeyPair
    emit Event.genHostCert
    let c := env.genHostCert pub fqdn fqdn 0
    writeKeys fqdn dataDir k c
  ReadKeys fqdn dataDir

/-- The host-CA block of `Init`: probe `GetHostCAPub`; on
`*teleport.NotFoundError` set first-start and either upsert the
supplied `cfg.HostCA` or `ResetHostCA("")`; on any other probe error
return `trace.Wrap(err)` — where `err` is the function's outer error
variable, which is nil at this point (the probe error `e` is only
logged).  Returns the block's contribution to `firstStart`. -/
def hostCABlock (env : Env) (cfg : InitConfig) : M Bool := do
  let w ← getW
  match GetHostCAPub w with
  | Except.ok _ => pure false
  | Except.error (Err.notFound _) => do
    (match cfg.HostCA with
     | some hca => UpsertHostCA hca
     | none => ResetHostCA env)
    pure true
  | Except.error _ => throwE (Failure.err (Err.wrapNil))

/-- The user-CA block of `Init`.  Faithful to the source: the branch
condition is `cfg.HostCA != nil` (not `cfg.UserCA`), and the taken
branch dereferences `*cfg.UserCA`, which panics when `cfg.UserCA` is
nil.  The non-not-found probe branch again returns `trace.Wrap` of the
outer (nil) error variable. -/
def userCABlock (env : Env) (cfg : InitConfig) : M Bool := do
  let w ← getW
  match GetUserCAPub w with
  | Except.ok _ => pure false
  | Except.error (Err.notFound _) => do
    (match cfg.HostCA with
     | some _ =>
       match cfg.UserCA with
       | some uca => UpsertUserCA uca
       | none => throwE (Failure.crash "runtime error: invalid memory address or nil pointer dereference")
     | none => ResetUserCA env)
    pure true
  | Except.error _ => throwE (Failure.err (Err.wrapNil))

/-- The token-import loop of `Init`'s first-start block: for every
`(fqdn, token)` pair, `session.DecodeSID(SecureID(token), scrt)` and
`UpsertToken(pid, fqdn, 600*time.Second)`; a decode failure returns
`trace.Wrap` of that failure at once. -/
def upsertAllowedTokens (env : Env) (scrt : Secret) :
    List (String × String) → M Unit
  | [] => pure ()
  | (fqdn, token) :: rest => do
    match env.decodeSID token scrt.keyBytes with
    | Except.error e => throwE (Failure.err (Err.wrap e))
    | Except.ok pid => do
      UpsertToken pid fqdn 600
      upsertAllowedTokens env scrt rest

/-- The trusted-authority import loop of `Init`'s first-start block:
`UpsertRemoteCert(cert, 0)` for each supplied record. -/
def upsertTrustedAuthorities : List RemoteCert → M Unit
  | [] => pure ()
  | rc :: rest => do
    UpsertRemoteCert rc 0
    upsertTrustedAuthorities rest

/-- The body of `Init`'s `if firstStart` block: the token import and
the trusted-authority import, in source order.  The leading
`firstStartProvisioning` trace event marks that control entered the
gated block. -/
def firstStartProvision (env : Env) (scrt : Secret) (cfg : InitConfig) : M Unit := do
  emit Event.firstStartProvisioning
  let _ ← (if cfg.AllowedTokens.length != 0 then
      upsertAllowedTokens env scrt cfg.AllowedTokens
    else
      pure ())
  (if cfg.TrustedAuthorities.length != 0 then
    upsertTrustedAuthorities cfg.TrustedAuthorities
  else
    pure ())

/-- `Init` from `lib/auth/init.go`: validate required fields, create
the data directory, acquire the cluster lock (released on every exit),
bootstrap the secret, run the host- and user-CA blocks (which derive
`firstStart`), run the first-start-gated provisioning, and finish with
`InitKeys`. -/
def Init (env : Env) (cfg : InitConfig) : M (AuthServer × Signer) :=
  if cfg.AuthDomain = "" then throwE (Failure.err (Err.errorf "node name can not be empty"))
  else if cfg.DataDir = "" then throwE (Failure.err (Err.errorf "path can not be empty"))
  else do
    mkdirAll cfg.DataDir
    acquireLock cfg.AuthDomain
    withRelease cfg.AuthDomain do
      let scrt ← InitSecret env cfg.DataDir cfg.SecretKey
      let asrv : AuthServer := { scrt := scrt }
      let fsHost ← hostCABlock env cfg
      let fsUser ← userCABlock env cfg
      let firstStart := fsHost || fsUser
      let _ ← (if firstStart then
          firstStartProvision env scrt cfg
        else
          pure ())
      let signer ← InitKeys env asrv cfg.FQDN cfg.DataDir
      pure (asrv, signer)

/-! ## Filesystem lemmas -/

theorem lookupFile_setFile_self (l : List (String × FileData)) (p : String) (d : FileData) :
    lookupFile (setFile l p d) p = some d := by
  induction l with
  | nil => simp [setFile, lookupFile]
  | cons hd tl ih =>
    obtain ⟨q, e⟩ := hd
    by_cases hpq : p = q <;> simp [setFile, lookupFile, hpq, ih]

theorem lookupFile_setFile_ne (l : List (String × FileData)) (p q : String) (d : FileData)
    (h : q ≠ p) : lookupFile (setFile l p d) q = lookupFile l q := by
  induction l with
  | nil => simp [setFile, lookupFile, h]
  | cons hd tl ih =>
    obtain ⟨r, e⟩ := hd
    by_cases hpr : p = r
    · subst hpr
      simp [setFile, lookupFile, h]
    · by_cases hqr : q = r <;> simp [setFile, lookupFile, hpr, hqr, ih]

/-! ## Distinctness of the three persisted paths

`secretKeyPath dd`, `(keysPath fqdn dd).1` and `(keysPath fqdn dd).2`
end in `.secret`, `.key` and `.cert` respectively, so no two of them
can coincide, for any `fqdn` and data directories.  We distinguish them
by the first four characters of the reversed character list. -/

def revChars (s : String) : List Char := s.data.reverse

theorem revChars_append (a b : String) : revChars (a ++ b) = revChars b ++ revChars a := by
  simp [revChars, String.data_append]

theorem revChars_take4_key (x : String) :
    (revChars (x ++ ".key")).take 4 = ['y', 'e', 'k', '.'] := by
  rw [revChars_append]
  have h : revChars ".key" = ['y', 'e', 'k', '.'] := rfl
  rw [h]
  have := List.take_left (['y', 'e', 'k', '.'] : List Char) (revChars x)
  simpa using this

theorem revChars_take4_cert (x : String) :
    (revChars (x ++ ".cert")).take 4 = ['t', 'r', 'e', 'c'] := by
  rw [revChars_append]
  have h : revChars ".cert" = ['t', 'r', 'e', 'c', '.'] := rfl
  rw [h]
  have := List.take_left (['t', 'r', 'e', 'c'] : List Char) ('.' :: revChars x)
  simpa using this

theorem revChars_take4_secret (x : String) :
    (revChars (x ++ "/teleport.secret")).take 4 = ['t', 'e', 'r', 'c'] := by
  rw [revChars_append]
  have h : revChars "/teleport.secret" =
      ['t', 'e', 'r', 'c', 'e', 's', '.', 't', 'r', 'o', 'p', 'e', 'l', 'e', 't', '/'] := rfl
  rw [h]
  have := List.take_left (['t', 'e', 'r', 'c'] : List Char)
    (['e', 's', '.', 't', 'r', 'o', 'p', 'e', 'l', 'e', 't', '/'] ++ revChars x)
  simpa using this

theorem keyPath_ne_certPath (fqdn dd fqdn' dd' : String) :
    (keysPath fqdn dd).1 ≠ (keysPath fqdn' dd').2 := by
  intro h
  have h4 : (revChars ((keysPath fqdn dd).1)).take 4 = (revChars ((keysPath fqdn' dd').2)).take 4 := by
    rw [h]
  rw [show (keysPath fqdn dd).1 = (dd ++ "/" ++ fqdn) ++ ".key" from rfl] at h4
  rw [show (keysPath fqdn' dd').2 = (dd' ++ "/" ++ fqdn') ++ ".cert" from rfl] at h4
  rw [revChars_take4_key, revChars_take4_cert] at h4
  simp at h4

theorem keyPath_ne_secretPath (fqdn dd dd' : String) :
    (keysPath fqdn dd).1 ≠ secretKeyPath dd' := by
  intro h
  have h4 : (revChars ((keysPath fqdn dd).1)).take 4 = (revChars (secretKeyPath dd')).take 4 := by
    rw [h]
  rw [show (keysPath fqdn dd).1 = (dd ++ "/" ++ fqdn) ++ ".key" from rfl] at h4
  rw [show secretKeyPath dd' = dd' ++ "/teleport.secret" from rfl] at h4
  rw [revChars_take4_key, revChars_take4_secret] at h4
  simp at h4

theorem certPath_ne_secretPath (fqdn dd dd' : String) :
    (keysPath fqdn dd).2 ≠ secretKeyPath dd' := by
  intro h
  have h4 : (revChars ((keysPath fqdn dd).2)).take 4 = (revChars (secretKeyPath dd')).take 4 := by
    rw [h]
  rw [show (keysPath fqdn dd).2 = (dd ++ "/" ++ fqdn) ++ ".cert" from rfl] at h4
  rw [show secretKeyPath dd' = dd' ++ "/teleport.secret" from rfl] at h4
  rw [revChars_take4_cert, revChars_take4_secret] at h4
  simp at h4

/-! ## Secret store: run lemmas -/

theorem ReadSecret_of_exists (dd : String) (w : World) (fd : FileData)
    (h : lookupFile w.fs.entries (secretKeyPath dd) = some fd) :
    ReadSecret dd w = (Except.ok ⟨fd.content⟩, w) := by
  unfold ReadSecret
  simp [readFile_apply, h]

theorem ReadSecret_of_absent (dd : String) (w : World)
    (h : lookupFile w.fs.entries (secretKeyPath dd) = none) :
    ReadSecret dd w = (Except.error (Failure.err (Err.osNotExist (secretKeyPath dd))), w) := by
  unfold ReadSecret
  simp [readFile_apply, h]

theorem InitSecret_of_exists (env : Env) (dd sk : String) (w : World) (fd : FileData)
    (h : lookupFile w.fs.entries (secretKeyPath dd) = some fd) :
    InitSecret env dd sk w = (Except.ok ⟨fd.content⟩, w) := by
  unfold InitSecret
  simp [h, ReadSecret_of_exists dd w fd h]

theorem InitSecret_of_absent_generated (env : Env) (dd : String) (w : World)
    (h : lookupFile w.fs.entries (secretKeyPath dd) = none) :
    InitSecret env dd "" w =
      (Except.ok ⟨env.freshSecretKey⟩,
        { w with
          fs := { w.fs with
            entries := setFile w.fs.entries (secretKeyPath dd) ⟨env.freshSecretKey, 0o600⟩ },
          log := w.log ++ [Event.genSecretKey, Event.fileWrite (secretKeyPath dd)] }) := by
  unfold InitSecret ReadSecret
  simp [h, readFile_apply, lookupFile_setFile_self]

theorem InitSecret_of_absent_provided (env : Env) (dd sk : String) (w : World)
    (h : lookupFile w.fs.entries (secretKeyPath dd) = none) (hsk : sk ≠ "") :
    InitSecret env dd sk w =
      (Except.ok ⟨sk⟩,
        { w with
          fs := { w.fs with
            entries := setFile w.fs.entries (secretKeyPath dd) ⟨sk, 0o600⟩ },
          log := w.log ++ [Event.fileWrite (secretKeyPath dd)] }) := by
  unfold InitSecret ReadSecret
  simp [h, hsk, readFile_apply, lookupFile_setFile_self]

/-! ## Node identity bootstrap: run lemmas -/

theorem ReadKeys_of_present (fqdn dd : String) (w : World) (kd cd : FileData)
    (hk : lookupFile w.fs.entries (keysPath fqdn dd).1 = some kd)
    (hc : lookupFile w.fs.entries (keysPath fqdn dd).2 = some cd) :
    ReadKeys fqdn dd w = (Except.ok ⟨kd.content, cd.content⟩, w) := by
  simp only [keysPath] at hk hc
  unfold ReadKeys
  simp [keysPath, readFile_apply, hk, hc]

theorem InitKeys_of_empty_fqdn (env : Env) (a : AuthServer) (dd : String) (w : World) :
    InitKeys env a "" dd w =
      (Except.error (Failure.err (Err.errorf "fqdn can not be empty")), w) := by
  unfold InitKeys
  simp

theorem InitKeys_of_present (env : Env) (a : AuthServer) (fqdn dd : String) (w : World)
    (kd cd : FileData) (hf : fqdn ≠ "")
    (hk : lookupFile w.fs.entries (keysPath fqdn dd).1 = some kd)
    (hc : lookupFile w.fs.entries (keysPath fqdn dd).2 = some cd) :
    InitKeys env a fqdn dd w = (Except.ok ⟨kd.content, cd.content⟩, w) := by
  simp only [keysPath] at hk hc
  unfold InitKeys ReadKeys
  simp [keysPath, hf, readFile_apply, hk, hc]

theorem InitKeys_of_missing (env : Env) (a : AuthServer) (fqdn dd : String) (w : World)
    (hf : fqdn ≠ "")
    (hmiss : lookupFile w.fs.entries (keysPath fqdn dd).1 = none ∨
             lookupFile w.fs.entries (keysPath fqdn dd).2 = none) :
    InitKeys env a fqdn dd w =
      (Except.ok ⟨env.genKeyPair.1, env.genHostCert env.genKeyPair.2 fqdn fqdn 0⟩,
        { w with
          fs := { w.fs with
                  entries := setFile
                    (setFile w.fs.entries (keysPath fqdn dd).1 ⟨env.genKeyPair.1, 0o600⟩)
                    (keysPath fqdn dd).2
                    ⟨env.genHostCert env.genKeyPair.2 fqdn fqdn 0, 0o600⟩ },
          log := w.log ++ [Event.genKeyPair, Event.genHostCert,
            Event.fileWrite (keysPath fqdn dd).1, Event.fileWrite (keysPath fqdn dd).2] }) := by
  have hne : (keysPath fqdn dd).1 ≠ (keysPath fqdn dd).2 := keyPath_ne_certPath fqdn dd fqdn dd
  have hlk : lookupFile
      (setFile (setFile w.fs.entries (keysPath fqdn dd).1 ⟨env.genKeyPair.1, 0o600⟩)
        (keysPath fqdn dd).2 ⟨env.genHostCert env.genKeyPair.2 fqdn fqdn 0, 0o600⟩)
      (keysPath fqdn dd).1 = some ⟨env.genKeyPair.1, 0o600⟩ := by
    rw [lookupFile_setFile_ne _ _ _ _ hne, lookupFile_setFile_self]
  have hlc : lookupFile
      (setFile (setFile w.fs.entries (keysPath fqdn dd).1 ⟨env.genKeyPair.1, 0o600⟩)
        (keysPath fqdn dd).2 ⟨env.genHostCert env.genKeyPair.2 fqdn fqdn 0, 0o600⟩)
      (keysPath fqdn dd).2 = some ⟨env.genHostCert env.genKeyPair.2 fqdn fqdn 0, 0o600⟩ :=
    lookupFile_setFile_self _ _ _
  cases hkp : env.genKeyPair with
  | mk k pub =>
    simp only [keysPath, hkp] at hlk hlc hmiss ⊢
    unfold InitKeys ReadKeys writeKeys
    rcases hmiss with hm | hm <;>
      simp [keysPath, hf, hkp, readFile_apply, hm, hlk, hlc]

/-! ## CA bootstrap blocks: run lemmas -/

theorem hostCABlock_of_fault (env : Env) (cfg : InitConfig) (w : World) (msg : String)
    (h : w.backend.hostCAFault = some msg) :
    hostCABlock env cfg w = (Except.error (Failure.err Err.wrapNil), w) := by
  unfold hostCABlock GetHostCAPub
  simp [h]

theorem hostCABlock_of_present (env : Env) (cfg : InitConfig) (w : World) (ca : CA)
    (hfault : w.backend.hostCAFault = none) (h : w.backend.hostCA = some ca) :
    hostCABlock env cfg w = (Except.ok false, w) := by
  unfold hostCABlock GetHostCAPub
  simp [hfault, h]

theorem hostCABlock_of_absent_supplied (env : Env) (cfg : InitConfig) (w : World) (hca : CA)
    (hfault : w.backend.hostCAFault = none) (h : w.backend.hostCA = none)
    (hcfg : cfg.HostCA = some hca) :
    hostCABlock env cfg w =
      (Except.ok true,
        { w with
          backend := { w.backend with hostCA := some hca },
          log := w.log ++ [Event.upsertHostCA] }) := by
  unfold hostCABlock GetHostCAPub UpsertHostCA
  simp [hfault, h, hcfg]

theorem hostCABlock_of_absent_generated (env : Env) (cfg : InitConfig) (w : World)
    (hfault : w.backend.hostCAFault = none) (h : w.backend.hostCA = none)
    (hcfg : cfg.HostCA = none) :
    hostCABlock env cfg w =
      (Except.ok true,
        { w with
          backend := { w.backend with hostCA := some env.freshHostCA },
          log := w.log ++ [Event.resetHostCA] }) := by
  unfold hostCABlock GetHostCAPub ResetHostCA
  simp [hfault, h, hcfg]

theorem userCABlock_of_fault (env : Env) (cfg : InitConfig) (w : World) (msg : String)
    (h : w.backend.userCAFault = some msg) :
    userCABlock env cfg w = (Except.error (Failure.err Err.wrapNil), w) := by
  unfold userCABlock GetUserCAPub
  simp [h]

theorem userCABlock_of_present (env : Env) (cfg : InitConfig) (w : World) (ca : CA)
    (hfault : w.backend.userCAFault = none) (h : w.backend.userCA = some ca) :
    userCABlock env cfg w = (Except.ok false, w) := by
  unfold userCABlock GetUserCAPub
  simp [hfault, h]

/-- When the user CA is absent and `cfg.HostCA` is supplied (the branch
condition the source actually tests), the source upserts `*cfg.UserCA`;
here `cfg.UserCA` is also supplied, so the upsert adopts it. -/
theorem userCABlock_of_absent_hostca_userca (env : Env) (cfg : InitConfig) (w : World)
    (hca uca : CA) (hfault : w.backend.userCAFault = none) (h : w.backend.userCA = none)
    (hcfgH : cfg.HostCA = some hca) (hcfgU : cfg.UserCA = some uca) :
    userCABlock env cfg w =
      (Except.ok true,
        { w with
          backend := { w.backend with userCA := some uca },
          log := w.log ++ [Event.upsertUserCA] }) := by
  unfold userCABlock GetUserCAPub UpsertUserCA
  simp [hfault, h, hcfgH, hcfgU]

/-- When the user CA is absent, `cfg.HostCA` is supplied but
`cfg.UserCA` is nil, the source dereferences the nil `cfg.UserCA`
pointer: a Go runtime panic. -/
theorem userCABlock_of_absent_nil_deref (env : Env) (cfg : InitConfig) (w : World)
    (hca : CA) (hfault : w.backend.userCAFault = none) (h : w.backend.userCA = none)
    (hcfgH : cfg.HostCA = some hca) (hcfgU : cfg.UserCA = none) :
    userCABlock env cfg w =
      (Except.error (Failure.crash "runtime error: invalid memory address or nil pointer dereference"), w) := by
  unfold userCABlock GetUserCAPub
  simp [hfault, h, hcfgH, hcfgU]

/-- When the user CA is absent and `cfg.HostCA` is nil, the source
generates a fresh user CA — even when `cfg.UserCA` is supplied. -/
theorem userCABlock_of_absent_generated (env : Env) (cfg : InitConfig) (w : World)
    (hfault : w.backend.userCAFault = none) (h : w.backend.userCA = none)
    (hcfgH : cfg.HostCA = none) :
    userCABlock env cfg w =
      (Except.ok true,
        { w with
          backend := { w.backend with userCA := some env.freshUserCA },
          log := w.log ++ [Event.resetUserCA] }) := by
  unfold userCABlock GetUserCAPub ResetUserCA
  simp [hfault, h, hcfgH]

/-! ## First-start provisioning loops: run lemmas -/

/-- Pure description of the token-import loop's successful effect: the
decoded `(pid, fqdn, 600)` records in iteration order, or the first
decode error. -/
def decodeTokenList (env : Env) (key : String) :
    List (String × String) → Except Err (List (String × String × Nat))
  | [] => Except.ok []
  | (fqdn, token) :: rest =>
    match env.decodeSID token key with
    | Except.error e => Except.error e
    | Except.ok pid =>
      match decodeTokenList env key rest with
      | Except.error e => Except.error e
      | Except.ok l => Except.ok ((pid, fqdn, 600) :: l)

theorem upsertAllowedTokens_ok (env : Env) (scrt : Secret) (l : List (String × String))
    (w : World) (dl : List (String × String × Nat))
    (h : decodeTokenList env scrt.keyBytes l = Except.ok dl) :
    upsertAllowedTokens env scrt l w =
      (Except.ok (),
        { w with
          backend := { w.backend with tokens := w.backend.tokens ++ dl },
          log := w.log ++ dl.map (fun x => Event.tokenUpsert x.1 x.2.1) }) := by
  induction l generalizing w dl with
  | nil =>
    unfold decodeTokenList at h
    obtain rfl : dl = [] := by simpa using h.symm
    unfold upsertAllowedTokens
    simp
  | cons hd rest ih =>
    obtain ⟨f, t⟩ := hd
    unfold decodeTokenList at h
    cases hd : env.decodeSID t scrt.keyBytes with
    | error e => rw [hd] at h; simp at h
    | ok pid =>
      rw [hd] at h
      cases hr : decodeTokenList env scrt.keyBytes rest with
      | error e => rw [hr] at h; simp at h
      | ok l' =>
        rw [hr] at h
        simp at h
        subst h
        unfold upsertAllowedTokens UpsertToken
        rw [hd]
        simp only [M.bind_apply]
        rw [ih _ l' hr]
        simp

theorem upsertAllowedTokens_fail (env : Env) (scrt : Secret) (w : World)
    (good : List (String × String)) (f t : String) (rest : List (String × String))
    (gl : List (String × String × Nat)) (e : Err)
    (hgood : decodeTokenList env scrt.keyBytes good = Except.ok gl)
    (hbad : env.decodeSID t scrt.keyBytes = Except.error e) :
    upsertAllowedTokens env scrt (good ++ (f, t) :: rest) w =
      (Except.error (Failure.err (Err.wrap e)),
        { w with
          backend := { w.backend with tokens := w.backend.tokens ++ gl },
          log := w.log ++ gl.map (fun x => Event.tokenUpsert x.1 x.2.1) }) := by
  induction good generalizing w gl with
  | nil =>
    unfold decodeTokenList at hgood
    obtain rfl : gl = [] := by simpa using hgood.symm
    show upsertAllowedTokens env scrt ((f, t) :: rest) w = _
    unfold upsertAllowedTokens
    rw [hbad]
    simp
  | cons hd grest ih =>
    obtain ⟨f', t'⟩ := hd
    unfold decodeTokenList at hgood
    cases hd' : env.decodeSID t' scrt.keyBytes with
    | error e' => rw [hd'] at hgood; simp at hgood
    | ok pid =>
      rw [hd'] at hgood
      cases hr : decodeTokenList env scrt.keyBytes grest with
      | error e' => rw [hr] at hgood; simp at hgood
      | ok l' =>
        rw [hr] at hgood
        simp at hgood
        subst hgood
        show upsertAllowedTokens env scrt ((f', t') :: (grest ++ (f, t) :: rest)) w = _
        unfold upsertAllowedTokens UpsertToken
        rw [hd']
        simp only [M.bind_apply]
        rw [ih _ l' hr]
        simp

theorem upsertTrustedAuthorities_run (l : List RemoteCert) (w : World) :
    upsertTrustedAuthorities l w =
      (Except.ok (),
        { w with
          backend := { w.backend with
                       remoteCerts := w.backend.remoteCerts ++ l.map (fun rc => (rc, 0)) },
          log := w.log ++ l.map (fun rc => Event.remoteCertUpsert rc.fqdn) }) := by
  induction l generalizing w with
  | nil =>
    unfold upsertTrustedAuthorities
    simp
  | cons rc rest ih =>
    unfold upsertTrustedAuthorities UpsertRemoteCert
    simp only [M.bind_apply]
    rw [ih]
    simp

/-! ## Success-extraction lemmas: what a component's successful run
implies about its post-state -/

theorem runEq_extract {α : Type} {r1 r2 : Except Failure α} {w1 w2 : World}
    (h : (r1, w1) = (r2, w2)) : r1 = r2 ∧ w1 = w2 := by
  cases h; exact ⟨rfl, rfl⟩

theorem bind_ok_extract {α β : Type} {x : M α} {f : α → M β} {w w' : World} {b : β}
    (h : (x >>= f) w = (Except.ok b, w')) :
    ∃ a wm, x w = (Except.ok a, wm) ∧ f a wm = (Except.ok b, w') := by
  have h' := h
  rw [M.bind_apply] at h'
  rcases hx : x w with ⟨r, wm⟩
  rw [hx] at h'
  cases r with
  | error e => simp at h'
  | ok a => exact ⟨a, wm, rfl, h'⟩

theorem withRelease_ok_extract {α : Type} {name : String} {body : M α} {w w' : World} {b : α}
    (h : withRelease name body w = (Except.ok b, w')) :
    ∃ wb, body w = (Except.ok b, wb) ∧
      w' = { wb with
             locks := wb.locks.erase name,
             log := wb.log ++ [Event.lockReleased name] } := by
  rw [withRelease_apply] at h
  rcases hbody : body w with ⟨rb, wb⟩
  rw [hbody] at h
  simp only [releaseLock_apply] at h
  obtain ⟨hr, hw⟩ := runEq_extract h
  cases rb with
  | error e => exact absurd hr (by simp)
  | ok bb =>
    injection hr with hr
    subst hr
    exact ⟨wb, rfl, hw.symm⟩

theorem InitSecret_ok_facts (env : Env) (dd sk : String) (w : World) :
    ∃ s w', InitSecret env dd sk w = (Except.ok s, w') ∧
      w'.backend = w.backend ∧ w'.locks = w.locks ∧ w'.fs.dirs = w.fs.dirs ∧
      (∃ p, lookupFile w'.fs.entries (secretKeyPath dd) = some ⟨s.keyBytes, p⟩) ∧
      (∀ q, q ≠ secretKeyPath dd →
        lookupFile w'.fs.entries q = lookupFile w.fs.entries q) ∧
      ∃ tl, w'.log = w.log ++ tl ∧ Event.firstStartProvisioning ∉ tl := by
  cases hs : lookupFile w.fs.entries (secretKeyPath dd) with
  | some fd =>
    refine ⟨⟨fd.content⟩, w, InitSecret_of_exists env dd sk w fd hs, rfl, rfl, rfl,
      ⟨fd.perm, ?_⟩, fun q _ => rfl, [], by simp, by simp⟩
    simpa using hs
  | none =>
    by_cases hsk : sk = ""
    · subst hsk
      refine ⟨⟨env.freshSecretKey⟩, _, InitSecret_of_absent_generated env dd w hs, rfl, rfl, rfl,
        ⟨0o600, by simp [lookupFile_setFile_self]⟩,
        fun q hq => by simp [lookupFile_setFile_ne _ _ _ _ hq],
        [Event.genSecretKey, Event.fileWrite (secretKeyPath dd)], by simp, by simp⟩
    · refine ⟨⟨sk⟩, _, InitSecret_of_absent_provided env dd sk w hs hsk, rfl, rfl, rfl,
        ⟨0o600, by simp [lookupFile_setFile_self]⟩,
        fun q hq => by simp [lookupFile_setFile_ne _ _ _ _ hq],
        [Event.fileWrite (secretKeyPath dd)], by simp, by simp⟩

theorem hostCABlock_ok_facts (env : Env) (cfg : InitConfig) (w : World) (b : Bool) (w' : World)
    (h : hostCABlock env cfg w = (Except.ok b, w')) :
    w'.fs = w.fs ∧ w'.locks = w.locks ∧
    w'.backend.userCA = w.backend.userCA ∧
    w'.backend.hostCAFault = w.backend.hostCAFault ∧
    w'.backend.userCAFault = w.backend.userCAFault ∧
    w'.backend.tokens = w.backend.tokens ∧
    w'.backend.remoteCerts = w.backend.remoteCerts ∧
    w'.backend.hostCA.isSome ∧ w.backend.hostCAFault = none ∧
    (b = true ↔ w.backend.hostCA = none) ∧
    (b = false → w'.backend.hostCA = w.backend.hostCA) ∧
    ∃ tl, w'.log = w.log ++ tl ∧ Event.firstStartProvisioning ∉ tl := by
  cases hf : w.backend.hostCAFault with
  | some msg => rw [hostCABlock_of_fault env cfg w msg hf] at h; simp at h
  | none =>
    cases hca : w.backend.hostCA with
    | some ca =>
      rw [hostCABlock_of_present env cfg w ca hf hca] at h
      obtain ⟨hr, hw⟩ := runEq_extract h
      injection hr with hrb
      subst hrb
      subst hw
      exact ⟨rfl, rfl, rfl, hf, rfl, rfl, rfl, by simp [hca], rfl,
        by simp, fun _ => hca, [], by simp, by simp⟩
    | none =>
      cases hcfg : cfg.HostCA with
      | some hc =>
        rw [hostCABlock_of_absent_supplied env cfg w hc hf hca hcfg] at h
        obtain ⟨hr, hw⟩ := runEq_extract h
        injection hr with hrb
        subst hrb
        subst hw
        exact ⟨rfl, rfl, rfl, hf, rfl, rfl, rfl, by simp, rfl, by simp,
          by simp, [Event.upsertHostCA], by simp, by simp⟩
      | none =>
        rw [hostCABlock_of_absent_generated env cfg w hf hca hcfg] at h
        obtain ⟨hr, hw⟩ := runEq_extract h
        injection hr with hrb
        subst hrb
        subst hw
        exact ⟨rfl, rfl, rfl, hf, rfl, rfl, rfl, by simp, rfl, by simp,
          by simp, [Event.resetHostCA], by simp, by simp⟩

theorem userCABlock_ok_facts (env : Env) (cfg : InitConfig) (w : World) (b : Bool) (w' : World)
    (h : userCABlock env cfg w = (Except.ok b, w')) :
    w'.fs = w.fs ∧ w'.locks = w.locks ∧
    w'.backend.hostCA = w.backend.hostCA ∧
    w'.backend.hostCAFault = w.backend.hostCAFault ∧
    w'.backend.userCAFault = w.backend.userCAFault ∧
    w'.backend.tokens = w.backend.tokens ∧
    w'.backend.remoteCerts = w.backend.remoteCerts ∧
    w'.backend.userCA.isSome ∧ w.backend.userCAFault = none ∧
    (b = true ↔ w.backend.userCA = none) ∧
    (b = false → w'.backend.userCA = w.backend.userCA) ∧
    ∃ tl, w'.log = w.log ++ tl ∧ Event.firstStartProvisioning ∉ tl := by
  cases hf : w.backend.userCAFault with
  | some msg => rw [userCABlock_of_fault env cfg w msg hf] at h; simp at h
  | none =>
    cases huca : w.backend.userCA with
    | some ca =>
      rw [userCABlock_of_present env cfg w ca hf huca] at h
      obtain ⟨hr, hw⟩ := runEq_extract h
      injection hr with hrb
      subst hrb
      subst hw
      exact ⟨rfl, rfl, rfl, rfl, hf, rfl, rfl, by simp [huca], rfl,
        by simp, fun _ => huca, [], by simp, by simp⟩
    | none =>
      cases hcfgH : cfg.HostCA with
      | some hc =>
        cases hcfgU : cfg.UserCA with
        | some uc =>
          rw [userCABlock_of_absent_hostca_userca env cfg w hc uc hf huca hcfgH hcfgU] at h
          obtain ⟨hr, hw⟩ := runEq_extract h
          injection hr with hrb
          subst hrb
          subst hw
          exact ⟨rfl, rfl, rfl, rfl, hf, rfl, rfl, by simp, rfl, by simp,
            by simp, [Event.upsertUserCA], by simp, by simp⟩
        | none =>
          rw [userCABlock_of_absent_nil_deref env cfg w hc hf huca hcfgH hcfgU] at h
          simp at h
      | none =>
        rw [userCABlock_of_absent_generated env cfg w hf huca hcfgH] at h
        obtain ⟨hr, hw⟩ := runEq_extract h
        injection hr with hrb
        subst hrb
        subst hw
        exact ⟨rfl, rfl, rfl, rfl, hf, rfl, rfl, by simp, rfl, by simp,
          by simp, [Event.resetUserCA], by simp, by simp⟩

theorem upsertAllowedTokens_ok_facts (env : Env) (scrt : Secret)
    (l : List (String × String)) (w w' : World)
    (h : upsertAllowedTokens env scrt l w = (Except.ok (), w')) :
    w'.fs = w.fs ∧ w'.locks = w.locks ∧
    w'.backend.hostCA = w.backend.hostCA ∧ w'.backend.userCA = w.backend.userCA ∧
    w'.backend.hostCAFault = w.backend.hostCAFault ∧
    w'.backend.userCAFault = w.backend.userCAFault ∧
    w'.backend.remoteCerts = w.backend.remoteCerts ∧
    ∃ tl, w'.log = w.log ++ tl ∧ Event.firstStartProvisioning ∉ tl := by
  induction l generalizing w with
  | nil =>
    obtain rfl : w' = w := by
      unfold upsertAllowedTokens at h; cases h; rfl
    exact ⟨rfl, rfl, rfl, rfl, rfl, rfl, rfl, [], by simp, by simp⟩
  | cons hd rest ih =>
    obtain ⟨f, t⟩ := hd
    unfold upsertAllowedTokens at h
    cases hd' : env.decodeSID t scrt.keyBytes with
    | error e => rw [hd'] at h; simp at h
    | ok pid =>
      rw [hd'] at h
      simp only [M.bind_apply] at h
      have h' : upsertAllowedTokens env scrt rest
          { w with
            backend := { w.backend with tokens := w.backend.tokens ++ [(pid, f, 600)] },
            log := w.log ++ [Event.tokenUpsert pid f] } = (Except.ok (), w') := by
        exact h
      obtain ⟨e1, e2, e3, e4, e5, e6, e7, tl, hlog, hmem⟩ := ih _ h'
      refine ⟨e1, e2, e3, e4, e5, e6, e7, Event.tokenUpsert pid f :: tl, ?_, ?_⟩
      · simpa using hlog
      · simpa using hmem

theorem firstStartProvision_ok_facts (env : Env) (scrt : Secret) (cfg : InitConfig)
    (w w' : World) (h : firstStartProvision env scrt cfg w = (Except.ok (), w')) :
    w'.fs = w.fs ∧ w'.locks = w.locks ∧
    w'.backend.hostCA = w.backend.hostCA ∧ w'.backend.userCA = w.backend.userCA ∧
    w'.backend.hostCAFault = w.backend.hostCAFault ∧
    w'.backend.userCAFault = w.backend.userCAFault ∧
    ∃ tl, w'.log = w.log ++ Event.firstStartProvisioning :: tl := by
  unfold firstStartProvision at h
  obtain ⟨u1, w1, h1, h⟩ := bind_ok_extract h
  rw [emit_apply] at h1
  obtain ⟨-, hw1⟩ := runEq_extract h1
  subst hw1
  obtain ⟨u2, w2, h2, h3⟩ := bind_ok_extract h
  cases u2
  have F2 : w2.fs = w.fs ∧ w2.locks = w.locks ∧
      w2.backend.hostCA = w.backend.hostCA ∧ w2.backend.userCA = w.backend.userCA ∧
      w2.backend.hostCAFault = w.backend.hostCAFault ∧
      w2.backend.userCAFault = w.backend.userCAFault ∧
      ∃ tl, w2.log = w.log ++ Event.firstStartProvisioning :: tl := by
    by_cases htok : (cfg.AllowedTokens.length != 0) = true
    · rw [if_pos htok] at h2
      obtain ⟨e1, e2, e3, e4, e5, e6, e7, tl, hlog, -⟩ :=
        upsertAllowedTokens_ok_facts env scrt cfg.AllowedTokens _ _ h2
      exact ⟨e1, e2, e3, e4, e5, e6, tl, by simpa using hlog⟩
    · rw [if_neg htok] at h2
      obtain ⟨-, hw⟩ := runEq_extract h2
      subst hw
      exact ⟨rfl, rfl, rfl, rfl, rfl, rfl, [], by simp⟩
  obtain ⟨f1, f2, f3, f4, f5, f6, tl2, hlog2⟩ := F2
  by_cases hta : (cfg.TrustedAuthorities.length != 0) = true
  · rw [if_pos hta, upsertTrustedAuthorities_run] at h3
    obtain ⟨-, hw⟩ := runEq_extract h3
    subst hw
    exact ⟨f1, f2, f3, f4, f5, f6,
      tl2 ++ cfg.TrustedAuthorities.map (fun rc => Event.remoteCertUpsert rc.fqdn),
      by simp [hlog2]⟩
  · rw [if_neg hta] at h3
    obtain ⟨-, hw⟩ := runEq_extract h3
    subst hw
    exact ⟨f1, f2, f3, f4, f5, f6, tl2, hlog2⟩

theorem InitKeys_ok_facts (env : Env) (a : AuthServer) (fqdn dd : String) (w : World)
    (s : Signer) (w' : World) (h : InitKeys env a fqdn dd w = (Except.ok s, w')) :
    fqdn ≠ "" ∧ w'.backend = w.backend ∧ w'.locks = w.locks ∧ w'.fs.dirs = w.fs.dirs ∧
    (∃ kd cd, lookupFile w'.fs.entries (keysPath fqdn dd).1 = some kd ∧
      lookupFile w'.fs.entries (keysPath fqdn dd).2 = some cd ∧
      s = ⟨kd.content, cd.content⟩) ∧
    (∀ q, q ≠ (keysPath fqdn dd).1 → q ≠ (keysPath fqdn dd).2 →
      lookupFile w'.fs.entries q = lookupFile w.fs.entries q) ∧
    ∃ tl, w'.log = w.log ++ tl ∧ Event.firstStartProvisioning ∉ tl := by
  by_cases hf : fqdn = ""
  · subst hf; rw [InitKeys_of_empty_fqdn] at h; simp at h
  · refine ⟨hf, ?_⟩
    have hmain : ∀ hmiss : lookupFile w.fs.entries (keysPath fqdn dd).1 = none ∨
        lookupFile w.fs.entries (keysPath fqdn dd).2 = none,
        InitKeys env a fqdn dd w = (Except.ok s, w') →
        w'.backend = w.backend ∧ w'.locks = w.locks ∧ w'.fs.dirs = w.fs.dirs ∧
        (∃ kd cd, lookupFile w'.fs.entries (keysPath fqdn dd).1 = some kd ∧
          lookupFile w'.fs.entries (keysPath fqdn dd).2 = some cd ∧
          s = ⟨kd.content, cd.content⟩) ∧
        (∀ q, q ≠ (keysPath fqdn dd).1 → q ≠ (keysPath fqdn dd).2 →
          lookupFile w'.fs.entries q = lookupFile w.fs.entries q) ∧
        ∃ tl, w'.log = w.log ++ tl ∧ Event.firstStartProvisioning ∉ tl := by
      intro hmiss h
      rw [InitKeys_of_missing env a fqdn dd w hf hmiss] at h
      obtain ⟨hr, hw⟩ := runEq_extract h
      injection hr with hrs
      subst hrs
      subst hw
      refine ⟨rfl, rfl, rfl,
        ⟨⟨env.genKeyPair.1, 0o600⟩, ⟨env.genHostCert env.genKeyPair.2 fqdn fqdn 0, 0o600⟩,
          ?_, ?_, rfl⟩, ?_,
        [Event.genKeyPair, Event.genHostCert,
          Event.fileWrite (keysPath fqdn dd).1, Event.fileWrite (keysPath fqdn dd).2],
        by simp, by simp⟩
      · simp [lookupFile_setFile_ne _ _ _ _ (keyPath_ne_certPath fqdn dd fqdn dd),
          lookupFile_setFile_self]
      · simp [lookupFile_setFile_self]
      · intro q hq1 hq2
        simp [lookupFile_setFile_ne _ _ _ _ hq2, lookupFile_setFile_ne _ _ _ _ hq1]
    cases hk : lookupFile w.fs.entries (keysPath fqdn dd).1 with
    | some kd =>
      cases hc : lookupFile w.fs.entries (keysPath fqdn dd).2 with
      | some cd =>
        rw [InitKeys_of_present env a fqdn dd w kd cd hf hk hc] at h
        obtain ⟨hr, hw⟩ := runEq_extract h
        injection hr with hrs
        subst hrs
        subst hw
        exact ⟨rfl, rfl, rfl, ⟨kd, cd, hk, hc, rfl⟩, fun q _ _ => rfl, [], by simp, by simp⟩
      | none => exact hmain (Or.inr hc) h
    | none => exact hmain (Or.inl hk) h

theorem mkdirAll_ok_facts (dir : String) (w : World) {r : Except Failure Unit} {w1 : World}
    (h : mkdirAll dir w = (r, w1)) :
    r = Except.ok () ∧ w1.backend = w.backend ∧ w1.locks = w.locks ∧
    w1.fs.entries = w.fs.entries ∧ dir ∈ w1.fs.dirs ∧
    ∃ tl, w1.log = w.log ++ tl ∧ Event.firstStartProvisioning ∉ tl := by
  rw [mkdirAll_apply] at h
  by_cases hd : dir ∈ w.fs.dirs
  · rw [if_pos hd] at h
    obtain ⟨hr, hw⟩ := runEq_extract h
    subst hw
    exact ⟨hr.symm, rfl, rfl, rfl, hd, [], by simp, by simp⟩
  · rw [if_neg hd] at h
    obtain ⟨hr, hw⟩ := runEq_extract h
    subst hw
    exact ⟨hr.symm, rfl, rfl, rfl, by simp, [Event.mkdir dir], by simp, by simp⟩

theorem acquireLock_ok_facts (name : String) (w : World) {u : Unit} {w1 : World}
    (h : acquireLock name w = (Except.ok u, w1)) :
    name ∉ w.locks ∧
    w1 = { w with
           locks := name :: w.locks,
           log := w.log ++ [Event.lockAcquired name] } := by
  rw [acquireLock_apply] at h
  by_cases hl : name ∈ w.locks
  · rw [if_pos hl] at h
    exact absurd (runEq_extract h).1 (by simp)
  · rw [if_neg hl] at h
    exact ⟨hl, ((runEq_extract h).2).symm⟩

/-- Master extraction: everything a successful run of `Init` implies
about the configuration, the returned identity, and the post-state. -/
theorem Init_ok_facts (env : Env) (cfg : InitConfig) (w : World)
    (a : AuthServer) (s : Signer) (w' : World)
    (h : Init env cfg w = (Except.ok (a, s), w')) :
    cfg.AuthDomain ≠ "" ∧ cfg.DataDir ≠ "" ∧ cfg.FQDN ≠ "" ∧
    cfg.AuthDomain ∉ w.locks ∧
    w'.locks = w.locks ∧
    w'.backend.hostCAFault = none ∧
    w'.backend.userCAFault = none ∧
    w'.backend.hostCA.isSome ∧
    w'.backend.userCA.isSome ∧
    cfg.DataDir ∈ w'.fs.dirs ∧
    (∃ p, lookupFile w'.fs.entries (secretKeyPath cfg.DataDir) = some ⟨a.scrt.keyBytes, p⟩) ∧
    (∃ kd cd, lookupFile w'.fs.entries (keysPath cfg.FQDN cfg.DataDir).1 = some kd ∧
       lookupFile w'.fs.entries (keysPath cfg.FQDN cfg.DataDir).2 = some cd ∧
       s = ⟨kd.content, cd.content⟩) ∧
    (w.backend.hostCA.isSome → w'.backend.hostCA = w.backend.hostCA) ∧
    (w.backend.userCA.isSome → w'.backend.userCA = w.backend.userCA) ∧
    (w.backend.hostCA.isSome → w.backend.userCA.isSome →
       w'.backend.tokens = w.backend.tokens ∧ w'.backend.remoteCerts = w.backend.remoteCerts) ∧
    (Event.firstStartProvisioning ∈ w'.log ↔
       (Event.firstStartProvisioning ∈ w.log ∨
        w.backend.hostCA = none ∨ w.backend.userCA = none)) := by
  by_cases hA : cfg.AuthDomain = ""
  · unfold Init at h; rw [if_pos hA] at h; simp at h
  by_cases hD : cfg.DataDir = ""
  · unfold Init at h; rw [if_neg hA, if_pos hD] at h; simp at h
  unfold Init at h
  rw [if_neg hA, if_neg hD] at h
  obtain ⟨u1, w1, hmk, h⟩ := bind_ok_extract h
  obtain ⟨-, mkB, mkL, mkE, mkD, tl1, mkLog, mkNoFsp⟩ := mkdirAll_ok_facts cfg.DataDir w hmk
  obtain ⟨u2, w2, hacq, h⟩ := bind_ok_extract h
  obtain ⟨hNotLocked1, hw2⟩ := acquireLock_ok_facts cfg.AuthDomain w1 hacq
  subst hw2
  obtain ⟨wb, hb, hw'⟩ := withRelease_ok_extract h
  -- walk the body
  obtain ⟨scrt, w3, hsec, hb⟩ := bind_ok_extract hb
  obtain ⟨s0, w0, hrun0, secB, secL, secD, ⟨p0, secLook⟩, secOther, tl3, secLog, secNoFsp⟩ :=
    InitSecret_ok_facts env cfg.DataDir cfg.SecretKey
      { w1 with
        locks := cfg.AuthDomain :: w1.locks,
        log := w1.log ++ [Event.lockAcquired cfg.AuthDomain] }
  rw [hsec] at hrun0
  obtain ⟨hr0, hw0⟩ := runEq_extract hrun0
  injection hr0 with hr0
  subst hr0
  subst hw0
  obtain ⟨b1, w4, hhb, hb⟩ := bind_ok_extract hb
  obtain ⟨hbF, hbL, hbUser, hbHF, hbUF, hbTok, hbRC, hbSome, hbFault0, hbIff, hbKeep,
    tl4, hbLog, hbNoFsp⟩ := hostCABlock_ok_facts env cfg w3 b1 w4 hhb
  obtain ⟨b2, w5, hub, hb⟩ := bind_ok_extract hb
  obtain ⟨ubF, ubL, ubHost, ubHF, ubUF, ubTok, ubRC, ubSome, ubFault0, ubIff, ubKeep,
    tl5, ubLog, ubNoFsp⟩ := userCABlock_ok_facts env cfg w4 b2 w5 hub
  obtain ⟨u3, w6, hgate, hb⟩ := bind_ok_extract hb
  have gateFacts : w6.fs = w5.fs ∧ w6.locks = w5.locks ∧
      w6.backend.hostCA = w5.backend.hostCA ∧ w6.backend.userCA = w5.backend.userCA ∧
      w6.backend.hostCAFault = w5.backend.hostCAFault ∧
      w6.backend.userCAFault = w5.backend.userCAFault ∧
      ((b1 || b2) = false → w6 = w5) ∧
      ∃ tl, w6.log = w5.log ++ tl ∧
        (Event.firstStartProvisioning ∈ tl ↔ (b1 || b2) = true) := by
    cases hbb : b1 || b2 with
    | true =>
      rw [if_pos hbb] at hgate
      cases u3
      obtain ⟨g1, g2, g3, g4, g5, g6, tl, glog⟩ :=
        firstStartProvision_ok_facts env scrt cfg w5 w6 hgate
      exact ⟨g1, g2, g3, g4, g5, g6, by simp, Event.firstStartProvisioning :: tl,
        by simpa using glog, by simp⟩
    | false =>
      rw [if_neg (by simp [hbb])] at hgate
      obtain ⟨-, hw6⟩ := runEq_extract hgate
      subst hw6
      exact ⟨rfl, rfl, rfl, rfl, rfl, rfl, fun _ => rfl, [], by simp, by simp⟩
  obtain ⟨gF, gL, gHost, gUser, gHF, gUF, gSkip, tl6, gLog, gIff⟩ := gateFacts
  obtain ⟨sg, w7, hik, hb⟩ := bind_ok_extract hb
  obtain ⟨hF, ikB, ikL, ikD, ⟨kd, cd, ikLookK, ikLookC, hsg⟩, ikOther, tl7, ikLog, ikNoFsp⟩ :=
    InitKeys_ok_facts env { scrt := scrt } cfg.FQDN cfg.DataDir w6 sg w7 hik
  rw [M.pure_apply] at hb
  obtain ⟨hres, hwb⟩ := runEq_extract hb
  injection hres with hres
  obtain ⟨rfl, rfl⟩ : a = { scrt := scrt } ∧ s = sg := by
    constructor
    · exact congrArg Prod.fst hres.symm
    · exact congrArg Prod.snd hres.symm
  subst hwb
  subst hw'
  -- chained equalities
  have cLock : w7.locks = cfg.AuthDomain :: w.locks := by
    rw [ikL, gL, ubL, hbL, secL]
    simp [mkL]
  have cHF : w7.backend.hostCAFault = none := by
    rw [ikB, gHF, ubHF, hbHF]
    exact hbFault0
  have cUF : w7.backend.userCAFault = none := by
    rw [ikB, gUF, ubUF]
    exact ubFault0
  have cHostSome : w7.backend.hostCA.isSome := by
    rw [ikB, gHost, ubHost]
    exact hbSome
  have cUserSome : w7.backend.userCA.isSome := by
    rw [ikB, gUser]
    exact ubSome
  have cDirs : cfg.DataDir ∈ w7.fs.dirs := by
    rw [ikD, gF, ubF, hbF, secD]
    simpa using mkD
  have cSecretLook : lookupFile w7.fs.entries (secretKeyPath cfg.DataDir) =
      some ⟨scrt.keyBytes, p0⟩ := by
    rw [ikOther _ (Ne.symm (keyPath_ne_secretPath cfg.FQDN cfg.DataDir cfg.DataDir))
      (Ne.symm (certPath_ne_secretPath cfg.FQDN cfg.DataDir cfg.DataDir)), gF, ubF, hbF]
    simpa using secLook
  have cHostStart : w3.backend.hostCA = w.backend.hostCA := by
    rw [secB]
    simp [mkB]
  have cUserStart : w4.backend.userCA = w.backend.userCA := by
    rw [hbUser, secB]
    simp [mkB]
  have cTokStart : w5.backend.tokens = w.backend.tokens := by
    rw [ubTok, hbTok, secB]
    simp [mkB]
  have cRCStart : w5.backend.remoteCerts = w.backend.remoteCerts := by
    rw [ubRC, hbRC, secB]
    simp [mkB]
  refine ⟨hA, hD, hF, ?_, ?_, ?_, ?_, ?_, ?_, ?_, ⟨p0, ?_⟩, ⟨kd, cd, by simpa using ikLookK,
    by simpa using ikLookC, hsg⟩, ?_, ?_, ?_, ?_⟩
  · rwa [mkL] at hNotLocked1
  · show w7.locks.erase cfg.AuthDomain = w.locks
    rw [cLock, List.erase_cons_head]
  · exact cHF
  · exact cUF
  · exact cHostSome
  · exact cUserSome
  · exact cDirs
  · exact cSecretLook
  · -- host CA preservation when present at start
    intro hpres
    show w7.backend.hostCA = w.backend.hostCA
    rw [ikB, gHost, ubHost]
    have hb1 : b1 = false := by
      cases b1 with
      | false => rfl
      | true =>
        exfalso
        have := hbIff.mp rfl
        rw [cHostStart] at this
        rw [this] at hpres
        simp at hpres
    rw [hbKeep hb1, cHostStart]
  · intro hpres
    show w7.backend.userCA = w.backend.userCA
    rw [ikB, gUser]
    have hb2 : b2 = false := by
      cases b2 with
      | false => rfl
      | true =>
        exfalso
        have := ubIff.mp rfl
        rw [cUserStart] at this
        rw [this] at hpres
        simp at hpres
    rw [ubKeep hb2, cUserStart]
  · intro hpresH hpresU
    have hb1 : b1 = false := by
      cases b1 with
      | false => rfl
      | true =>
        exfalso
        have := hbIff.mp rfl
        rw [cHostStart] at this
        rw [this] at hpresH
        simp at hpresH
    have hb2 : b2 = false := by
      cases b2 with
      | false => rfl
      | true =>
        exfalso
        have := ubIff.mp rfl
        rw [cUserStart] at this
        rw [this] at hpresU
        simp at hpresU
    have hskip : w6 = w5 := gSkip (by rw [hb1, hb2]; rfl)
    constructor
    · show w7.backend.tokens = w.backend.tokens
      rw [ikB, hskip]
      exact cTokStart
    · show w7.backend.remoteCerts = w.backend.remoteCerts
      rw [ikB, hskip]
      exact cRCStart
  · -- the first-start-provisioning event iff
    have hw7log : Event.firstStartProvisioning ∈ w7.log ↔
        Event.firstStartProvisioning ∈ w.log ∨ (b1 || b2) = true := by
      rw [ikLog, gLog, ubLog, hbLog, secLog]
      simp only [List.append_assoc, List.mem_append]
      rw [mkLog]
      simp [List.mem_append, mkNoFsp, secNoFsp, hbNoFsp, ubNoFsp, ikNoFsp, gIff]
    have hiff2 : (b1 || b2) = true ↔
        (w.backend.hostCA = none ∨ w.backend.userCA = none) := by
      rw [Bool.or_eq_true, hbIff, ubIff, cHostStart, cUserStart]
    show Event.firstStartProvisioning ∈ w7.log ++ [Event.lockReleased cfg.AuthDomain] ↔ _
    simp [List.mem_append, hw7log, hiff2, or_assoc]

/-! ## `Init`: composed run lemmas -/

/-- A run of `Init` against fully-bootstrapped state: both CAs present,
secret and node key/cert files on disk, data directory present, lock
free.  The run succeeds, performs no generation of any kind — its only
trace events are the lock acquire/release bookkeeping — and returns the
secret, key and certificate bytes read from the persisted state. -/
theorem Init_noop_run (env : Env) (cfg : InitConfig) (w : World)
    (sd kd cd : FileData) (hca uca : CA)
    (hA : cfg.AuthDomain ≠ "") (hD : cfg.DataDir ≠ "") (hF : cfg.FQDN ≠ "")
    (hdir : cfg.DataDir ∈ w.fs.dirs)
    (hlock : cfg.AuthDomain ∉ w.locks)
    (hhf : w.backend.hostCAFault = none) (huf : w.backend.userCAFault = none)
    (hh : w.backend.hostCA = some hca) (hu : w.backend.userCA = some uca)
    (hs : lookupFile w.fs.entries (secretKeyPath cfg.DataDir) = some sd)
    (hk : lookupFile w.fs.entries (keysPath cfg.FQDN cfg.DataDir).1 = some kd)
    (hc : lookupFile w.fs.entries (keysPath cfg.FQDN cfg.DataDir).2 = some cd) :
    Init env cfg w =
      (Except.ok (⟨⟨sd.content⟩⟩, ⟨kd.content, cd.content⟩),
        { w with
          log := w.log ++ [Event.lockAcquired cfg.AuthDomain, Event.lockReleased cfg.AuthDomain] }) := by
  unfold Init
  simp [hA, hD, hdir, hlock, mkdirAll_apply, acquireLock_apply, withRelease_apply,
    InitSecret_of_exists _ _ _ _ sd, hostCABlock_of_present _ _ _ hca,
    userCABlock_of_present _ _ _ uca, InitKeys_of_present _ _ _ _ _ kd cd,
    hs, hk, hc, hhf, huf, hh, hu, hF]

/-! ## Concrete fixtures for evaluation theorems and witnesses -/

/-- A concrete oracle: deterministic generation results, and a decoder
that accepts exactly the encoded token `"tokA"`. -/
def envW : Env :=
  { freshSecretKey := "SK"
    freshHostCA := { pub := "hca-pub", priv := "hca-priv" }
    freshUserCA := { pub := "uca-pub", priv := "uca-priv" }
    genKeyPair := ("node-priv", "node-pub")
    genHostCert := fun pub id host _ => "cert:" ++ pub ++ ":" ++ id ++ ":" ++ host
    decodeSID := fun t _ =>
      if t = "tokA" then Except.ok ("pid-" ++ t) else Except.error (Err.decodeErr t) }

/-- Empty backend, empty filesystem, no locks held. -/
def w0 : World :=
  { backend := { hostCA := none, userCA := none, hostCAFault := none, userCAFault := none,
                 tokens := [], remoteCerts := [] }
    fs := { entries := [], dirs := [] }
    locks := []
    log := [] }

/-- A full first-start configuration: one provisioning token, one
trusted authority, no caller-supplied CA material. -/
def cfg1 : InitConfig :=
  { FQDN := "n1", AuthDomain := "d", DataDir := "dd", SecretKey := ""
    AllowedTokens := [("n2", "tokA")]
    TrustedAuthorities := [{ rtype := "host", fqdn := "n3", value := "remote-cert" }]
    HostCA := none, UserCA := none }

/-- Caller-supplied CA material used in the user-CA-block scenarios. -/
def caSup : CA := { pub := "sup-pub", priv := "sup-priv" }

/-- User CA supplied, host CA not supplied. -/
def cfgC2 : InitConfig :=
  { FQDN := "n1", AuthDomain := "d", DataDir := "dd", SecretKey := "psk"
    AllowedTokens := [], TrustedAuthorities := []
    HostCA := none, UserCA := some caSup }

/-- Host CA supplied, user CA not supplied. -/
def cfgC2b : InitConfig :=
  { FQDN := "n1", AuthDomain := "d", DataDir := "dd", SecretKey := "psk"
    AllowedTokens := [], TrustedAuthorities := []
    HostCA := some caSup, UserCA := none }

/-- Backend whose host CA is present but whose user CA is absent. -/
def wC2 : World :=
  { backend := { hostCA := some { pub := "h0", priv := "h1" }, userCA := none,
                 hostCAFault := none, userCAFault := none, tokens := [], remoteCerts := [] }
    fs := { entries := [], dirs := [] }
    locks := [], log := [] }

/-- Backend whose host-CA public-key probe fails with a non-NotFound
backend error. -/
def wC3 : World :=
  { backend := { hostCA := none, userCA := none,
                 hostCAFault := some "backend unavailable", userCAFault := none,
                 tokens := [], remoteCerts := [] }
    fs := { entries := [], dirs := [] }
    locks := [], log := [] }

/-- Backend whose host CA is present and whose user-CA probe fails
with a non-NotFound backend error. -/
def wC3u : World :=
  { backend := { hostCA := some { pub := "h0", priv := "h1" }, userCA := none,
                 hostCAFault := none, userCAFault := some "backend unavailable",
                 tokens := [], remoteCerts := [] }
    fs := { entries := [], dirs := [] }
    locks := [], log := [] }

/-- Token map holding a decodable token followed by a malformed one. -/
def cfgC4 : InitConfig :=
  { FQDN := "n1", AuthDomain := "d", DataDir := "dd", SecretKey := ""
    AllowedTokens := [("n2", "tokA"), ("n4", "tokB")], TrustedAuthorities := []
    HostCA := none, UserCA := none }

/-- Filesystem already holding a persisted secret with key material
`"K0"`. -/
def wSec : World :=
  { backend := { hostCA := none, userCA := none, hostCAFault := none, userCAFault := none,
                 tokens := [], remoteCerts := [] }
    fs := { entries := [("dd/teleport.secret", { content := "K0", perm := 0o600 })], dirs := ["dd"] }
    locks := [], log := [] }

/-- Configuration with an empty AuthDomain. -/
def cfgEmptyA : InitConfig :=
  { FQDN := "n1", AuthDomain := "", DataDir := "dd", SecretKey := ""
    AllowedTokens := [], TrustedAuthorities := [], HostCA := none, UserCA := none }

/-! ## Claim theorems -/

/-- C7: Once the secret file exists at its deterministic path, no call
to `InitSecret` overwrites it: for any (possibly different, non-empty)
provided key, `InitSecret` leaves the world — in particular the
persisted key — completely unchanged and returns the sealing service
built from the persisted content, and `ReadSecret` afterwards returns
the sealing service built from that same persisted key material. -/
theorem initSecret_never_overwrites (env : Env) (dd sk : String) (w : World) (fd : FileData)
    (h : lookupFile w.fs.entries (secretKeyPath dd) = some fd) :
    InitSecret env dd sk w = (Except.ok ⟨fd.content⟩, w) ∧
    ReadSecret dd w = (Except.ok ⟨fd.content⟩, w) :=
  ⟨InitSecret_of_exists env dd sk w fd h, ReadSecret_of_exists dd w fd h⟩

theorem initSecret_never_overwrites_witness :
    InitSecret envW "dd" "different-key" wSec = (Except.ok ⟨"K0"⟩, wSec) ∧
    ReadSecret "dd" wSec = (Except.ok ⟨"K0"⟩, wSec) :=
  initSecret_never_overwrites envW "dd" "different-key" wSec
    { content := "K0", perm := 0o600 } (by decide)

/-- C8: When the secret file is absent, `ReadSecret` fails with the
filesystem's not-found error for that path (the `os.IsNotExist` error
raised by reading an absent file) and leaves the world unchanged — it
performs only the load path and never creates the file. -/
theorem readSecret_absent_fails_notfound (dd : String) (w : World)
    (h : lookupFile w.fs.entries (secretKeyPath dd) = none) :
    ReadSecret dd w = (Except.error (Failure.err (Err.osNotExist (secretKeyPath dd))), w) :=
  ReadSecret_of_absent dd w h

theorem readSecret_absent_fails_notfound_witness :
    ReadSecret "dd" w0 = (Except.error (Failure.err (Err.osNotExist (secretKeyPath "dd"))), w0) :=
  readSecret_absent_fails_notfound "dd" w0 (by decide)

/-- C9: `Init` with an empty domain name or an empty data directory
returns the configuration error for the first empty required field and
performs no side effects at all: the returned world is the input world
(no directory created, no lock acquired, nothing logged). -/
theorem init_empty_required_fields_no_side_effects (env : Env) (cfg : InitConfig) (w : World)
    (h : cfg.AuthDomain = "" ∨ cfg.DataDir = "") :
    Init env cfg w =
      (Except.error (Failure.err (Err.errorf
        (if cfg.AuthDomain = "" then "node name can not be empty" else "path can not be empty"))),
       w) := by
  unfold Init
  by_cases hA : cfg.AuthDomain = ""
  · rw [if_pos hA, if_pos hA]
    rfl
  · rcases h with h | hDd
    · exact absurd h hA
    · rw [if_neg hA, if_pos hDd, if_neg hA]
      rfl

theorem init_empty_required_fields_no_side_effects_witness :
    Init envW cfgEmptyA w0 =
      (Except.error (Failure.err (Err.errorf
        (if cfgEmptyA.AuthDomain = "" then "node name can not be empty"
         else "path can not be empty"))),
       w0) :=
  init_empty_required_fields_no_side_effects envW cfgEmptyA w0 (Or.inl (by decide))

/-- C2 (evaluation at the failing inputs): the user-CA block's branch
condition is `cfg.HostCA != nil`, not `cfg.UserCA != nil`.  With the
user CA absent in the backend: (a) supplying only `cfg.UserCA` makes
`Init` generate a fresh user CA via `ResetUserCA("")` instead of
adopting the supplied material via `UpsertUserCA`; (b) supplying only
`cfg.HostCA` makes `Init` dereference the nil `cfg.UserCA` pointer — a
runtime panic — instead of generating a fresh user CA. -/
theorem userCA_choice_depends_on_hostCA_eval :
    ((Init envW cfgC2 wC2).1 =
        Except.ok ({ scrt := ⟨"psk"⟩ }, { key := "node-priv", cert := "cert:node-pub:n1:n1" }) ∧
      (Init envW cfgC2 wC2).2.backend.userCA = some envW.freshUserCA ∧
      envW.freshUserCA ≠ caSup ∧
      Event.resetUserCA ∈ (Init envW cfgC2 wC2).2.log ∧
      Event.upsertUserCA ∉ (Init envW cfgC2 wC2).2.log) ∧
    (Init envW cfgC2b wC2).1 =
      Except.error (Failure.crash "runtime error: invalid memory address or nil pointer dereference") := by
  decide

/-- C3 (evaluation at the failing input): when a CA public-key probe
fails with a non-NotFound backend error, `Init` does abort — but the
error it returns is `trace.Wrap` of the function's outer `err`
variable, which is nil at that point, not the probe error `e`.  The
probe failure (`backendErr "backend unavailable"`) is lost in both the
host-CA and the user-CA branch. -/
theorem hostCA_probe_error_not_surfaced_eval :
    (Init envW cfg1 wC3).1 = Except.error (Failure.err Err.wrapNil) ∧
    wC3.backend.hostCAFault = some "backend unavailable" ∧
    (Init envW cfg1 wC3).2.backend.hostCA = none ∧
    (Init envW cfg1 wC3u).1 = Except.error (Failure.err Err.wrapNil) ∧
    wC3u.backend.userCAFault = some "backend unavailable" := by
  decide

/-- C4 (counterexample): with a token map iterated as a decodable
token followed by a malformed one, `Init` aborts before any
node-identity work, but the token decoded before the failure HAS been
persisted to the backend — refuting "no provisioning tokens from that
batch are persisted". -/
theorem token_decode_no_partial_import_cex :
    (Init envW cfgC4 w0).1 = Except.error (Failure.err (Err.wrap (Err.decodeErr "tokB"))) ∧
    Event.genKeyPair ∉ (Init envW cfgC4 w0).2.log ∧
    Event.genHostCert ∉ (Init envW cfgC4 w0).2.log ∧
    (Init envW cfgC4 w0).2.backend.tokens = [("pid-tokA", "n2", 600)] := by
  decide

/-- After a successful run of `Init`, a second run against the
resulting persisted state — same identity configuration, arbitrary
token/trusted-authority inputs, arbitrary oracle — succeeds, returns
the same auth server and signer, leaves backend and filesystem
untouched, and traces only the lock acquire/release bookkeeping. -/
theorem init_rerun_noop (env env2 : Env) (cfg : InitConfig)
    (toks2 : List (String × String)) (tas2 : List RemoteCert)
    (w : World) (a1 : AuthServer) (s1 : Signer) (w1 : World)
    (h : Init env cfg w = (Except.ok (a1, s1), w1)) :
    Init env2 { cfg with AllowedTokens := toks2, TrustedAuthorities := tas2 }
        { w1 with log := [] } =
      (Except.ok (a1, s1),
        { w1 with log := [Event.lockAcquired cfg.AuthDomain,
                          Event.lockReleased cfg.AuthDomain] }) := by
  obtain ⟨hA, hD, hF, hNL, hLocks, hHF, hUF, hHS, hUS, hDir, ⟨p, hSec⟩,
    ⟨kd, cd, hK, hC, hS1⟩, -, -, -, -⟩ := Init_ok_facts env cfg w a1 s1 w1 h
  obtain ⟨hca, hhca⟩ := Option.isSome_iff_exists.mp hHS
  obtain ⟨uca, huca⟩ := Option.isSome_iff_exists.mp hUS
  have hNL1 : cfg.AuthDomain ∉ ({ w1 with log := ([] : List Event) } : World).locks := by
    show cfg.AuthDomain ∉ w1.locks
    rw [hLocks]
    exact hNL
  have hmain := Init_noop_run env2
    { cfg with AllowedTokens := toks2, TrustedAuthorities := tas2 }
    { w1 with log := [] } ⟨a1.scrt.keyBytes, p⟩ kd cd hca uca
    hA hD hF hDir hNL1 hHF hUF hhca huca hSec hK hC
  rw [hS1]
  exact hmain

/-- C1: running `Init` twice in sequence against the same data
directory and backend: if the first run succeeds, the second run
succeeds as well, returns the same auth server (same sealing secret)
and the same signer (same node identity), leaves the host CA, user CA
and all other persisted state exactly as the first run left it, and
performs no generation whatsoever — its entire trace is the lock
acquire/release bookkeeping, i.e. it only reads existing state. -/
theorem init_idempotent_second_run_reads_only (env env2 : Env) (cfg : InitConfig)
    (w : World) (a1 : AuthServer) (s1 : Signer) (w1 : World)
    (h : Init env cfg w = (Except.ok (a1, s1), w1)) :
    Init env2 cfg { w1 with log := [] } =
      (Except.ok (a1, s1),
        { w1 with log := [Event.lockAcquired cfg.AuthDomain,
                          Event.lockReleased cfg.AuthDomain] }) :=
  init_rerun_noop env env2 cfg cfg.AllowedTokens cfg.TrustedAuthorities w a1 s1 w1 h

/-- The post-state of the successful first-start run `Init envW cfg1 w0`
(computed by evaluation; used by the C1/C5 witnesses). -/
def w1v : World :=
  { backend := { hostCA := some { pub := "hca-pub", priv := "hca-priv" }
                 userCA := some { pub := "uca-pub", priv := "uca-priv" }
                 hostCAFault := none
                 userCAFault := none
                 tokens := [("pid-tokA", "n2", 600)]
                 remoteCerts := [({ rtype := "host", fqdn := "n3", value := "remote-cert" }, 0)] }
    fs := { entries := [("dd/teleport.secret", { content := "SK", perm := 384 }),
                        ("dd/n1.key", { content := "node-priv", perm := 384 }),
                        ("dd/n1.cert", { content := "cert:node-pub:n1:n1", perm := 384 })]
            dirs := ["dd"] }
    locks := []
    log := [Event.mkdir "dd", Event.lockAcquired "d", Event.genSecretKey,
            Event.fileWrite "dd/teleport.secret", Event.resetHostCA, Event.resetUserCA,
            Event.firstStartProvisioning, Event.tokenUpsert "pid-tokA" "n2",
            Event.remoteCertUpsert "n3", Event.genKeyPair, Event.genHostCert,
            Event.fileWrite "dd/n1.key", Event.fileWrite "dd/n1.cert",
            Event.lockReleased "d"] }

def a1v : AuthServer := { scrt := ⟨"SK"⟩ }

def s1v : Signer := { key := "node-priv", cert := "cert:node-pub:n1:n1" }

theorem init_idempotent_second_run_reads_only_witness :
    Init envW cfg1 { w1v with log := [] } =
      (Except.ok (a1v, s1v),
        { w1v with log := [Event.lockAcquired cfg1.AuthDomain,
                           Event.lockReleased cfg1.AuthDomain] }) :=
  init_idempotent_second_run_reads_only envW envW cfg1 w0 a1v s1v w1v (by decide)

/-- C5: in a successful run of `Init` started with an empty trace, the
first-start-gated provisioning section runs (its entry event appears
in the trace) if and only if the host CA or the user CA was absent at
the start of the run; and after one successful bootstrap, a second
`Init` with arbitrary different token and trusted-authority inputs
succeeds without applying them: the persisted tokens and trusted
certificates are unchanged and the gated section does not run. -/
theorem first_start_gating (env env2 : Env) (cfg : InitConfig)
    (toks2 : List (String × String)) (tas2 : List RemoteCert)
    (w : World) (a1 : AuthServer) (s1 : Signer) (w1 : World)
    (hlog : w.log = [])
    (h : Init env cfg w = (Except.ok (a1, s1), w1)) :
    (Event.firstStartProvisioning ∈ w1.log ↔
      (w.backend.hostCA = none ∨ w.backend.userCA = none)) ∧
    ∃ w2, Init env2 { cfg with AllowedTokens := toks2, TrustedAuthorities := tas2 }
        { w1 with log := [] } = (Except.ok (a1, s1), w2) ∧
      w2.backend.tokens = w1.backend.tokens ∧
      w2.backend.remoteCerts = w1.backend.remoteCerts ∧
      Event.firstStartProvisioning ∉ w2.log := by
  obtain ⟨-, -, -, -, -, -, -, -, -, -, -, -, -, -, -, hIff⟩ :=
    Init_ok_facts env cfg w a1 s1 w1 h
  constructor
  · rw [hIff, hlog]
    simp
  · exact ⟨_, init_rerun_noop env env2 cfg toks2 tas2 w a1 s1 w1 h, rfl, rfl, by simp⟩

theorem first_start_gating_witness :
    (Event.firstStartProvisioning ∈ w1v.log ↔
      (w0.backend.hostCA = none ∨ w0.backend.userCA = none)) ∧
    ∃ w2, Init envW { cfg1 with AllowedTokens := [("n9", "tokB")], TrustedAuthorities := [] }
        { w1v with log := [] } = (Except.ok (a1v, s1v), w2) ∧
      w2.backend.tokens = w1v.backend.tokens ∧
      w2.backend.remoteCerts = w1v.backend.remoteCerts ∧
      Event.firstStartProvisioning ∉ w2.log :=
  first_start_gating envW envW cfg1 [("n9", "tokB")] [] w0 a1v s1v w1v (by decide) (by decide)

/-- Complete run of the gated section when every token decodes: all
decoded tokens and all trusted authorities are upserted. -/
theorem firstStartProvision_run (env : Env) (scrt : Secret) (cfg : InitConfig) (w : World)
    (dl : List (String × String × Nat))
    (hdec : decodeTokenList env scrt.keyBytes cfg.AllowedTokens = Except.ok dl) :
    firstStartProvision env scrt cfg w =
      (Except.ok (),
        { w with
          backend := { w.backend with
                       tokens := w.backend.tokens ++ dl,
                       remoteCerts := w.backend.remoteCerts ++
                         cfg.TrustedAuthorities.map (fun rc => (rc, 0)) },
          log := w.log ++ Event.firstStartProvisioning ::
            (dl.map (fun x => Event.tokenUpsert x.1 x.2.1) ++
             cfg.TrustedAuthorities.map (fun rc => Event.remoteCertUpsert rc.fqdn)) }) := by
  unfold firstStartProvision
  by_cases htok : (cfg.AllowedTokens.length != 0) = true
  · by_cases hta : (cfg.TrustedAuthorities.length != 0) = true
    · simp [htok, hta, upsertAllowedTokens_ok env scrt cfg.AllowedTokens _ dl hdec,
        upsertTrustedAuthorities_run]
    · have hta' : cfg.TrustedAuthorities = [] := by
        simpa using hta
      simp [htok, hta', upsertAllowedTokens_ok env scrt cfg.AllowedTokens _ dl hdec]
  · have htok' : cfg.AllowedTokens = [] := by
      simpa using htok
    obtain rfl : dl = [] := by
      rw [htok'] at hdec
      unfold decodeTokenList at hdec
      simpa using hdec.symm
    by_cases hta : (cfg.TrustedAuthorities.length != 0) = true
    · simp [htok', hta, upsertTrustedAuthorities_run]
    · have hta' : cfg.TrustedAuthorities = [] := by
        simpa using hta
      simp [htok', hta']

/-- Run of the gated section when the token map is a decodable prefix
followed by a malformed token: abort with the wrapped decode error,
the prefix already persisted. -/
theorem firstStartProvision_run_fail (env : Env) (scrt : Secret) (cfg : InitConfig) (w : World)
    (good : List (String × String)) (f t : String) (rest : List (String × String))
    (gl : List (String × String × Nat)) (e : Err)
    (htoks : cfg.AllowedTokens = good ++ (f, t) :: rest)
    (hgood : decodeTokenList env scrt.keyBytes good = Except.ok gl)
    (hbad : env.decodeSID t scrt.keyBytes = Except.error e) :
    firstStartProvision env scrt cfg w =
      (Except.error (Failure.err (Err.wrap e)),
        { w with
          backend := { w.backend with tokens := w.backend.tokens ++ gl },
          log := w.log ++ Event.firstStartProvisioning ::
            gl.map (fun x => Event.tokenUpsert x.1 x.2.1) }) := by
  unfold firstStartProvision
  have hlen : (cfg.AllowedTokens.length != 0) = true := by
    rw [htoks]
    simp
  rw [htoks]
  simp [hlen, htoks, upsertAllowedTokens_fail env scrt _ good f t rest gl e hgood hbad]

/-- C6: with a non-empty domain name, if either the key file or the
cert file at the deterministic paths derived from `(fqdn, dataDir)` is
missing, `InitKeys` generates a fresh key pair, requests a host
certificate with principal = `fqdn`, issuer = `fqdn` and zero
(non-expiring) validity, and persists both files with owner-only
(`0600`) permissions; when both files exist nothing is written; and in
every successful case the returned signer is exactly what `ReadKeys`
reconstructs from the files persisted in the final state. -/
theorem initKeys_generate_persist_readback (env : Env) (a : AuthServer) (fqdn dd : String)
    (w : World) (hf : fqdn ≠ "") :
    (lookupFile w.fs.entries (keysPath fqdn dd).1 = none ∨
     lookupFile w.fs.entries (keysPath fqdn dd).2 = none →
      InitKeys env a fqdn dd w =
        (Except.ok ⟨env.genKeyPair.1, env.genHostCert env.genKeyPair.2 fqdn fqdn 0⟩,
          { w with
            fs := { w.fs with
                    entries := setFile
                      (setFile w.fs.entries (keysPath fqdn dd).1 ⟨env.genKeyPair.1, 0o600⟩)
                      (keysPath fqdn dd).2
                      ⟨env.genHostCert env.genKeyPair.2 fqdn fqdn 0, 0o600⟩ },
            log := w.log ++ [Event.genKeyPair, Event.genHostCert,
              Event.fileWrite (keysPath fqdn dd).1, Event.fileWrite (keysPath fqdn dd).2] })) ∧
    (∀ kd cd, lookupFile w.fs.entries (keysPath fqdn dd).1 = some kd →
      lookupFile w.fs.entries (keysPath fqdn dd).2 = some cd →
      InitKeys env a fqdn dd w = (Except.ok ⟨kd.content, cd.content⟩, w)) ∧
    (∀ sg w', InitKeys env a fqdn dd w = (Except.ok sg, w') →
      ReadKeys fqdn dd w' = (Except.ok sg, w')) := by
  refine ⟨fun hmiss => InitKeys_of_missing env a fqdn dd w hf hmiss,
    fun kd cd hk hc => InitKeys_of_present env a fqdn dd w kd cd hf hk hc,
    fun sg w' h => ?_⟩
  obtain ⟨-, -, -, -, ⟨kd, cd, hk, hc, hsg⟩, -, -⟩ := InitKeys_ok_facts env a fqdn dd w sg w' h
  rw [hsg]
  exact ReadKeys_of_present fqdn dd w' kd cd hk hc

theorem initKeys_generate_persist_readback_witness :
    InitKeys envW a1v "n1" "dd" w0 =
      (Except.ok ⟨"node-priv", "cert:node-pub:n1:n1"⟩,
        { w0 with
          fs := { entries := [("dd/n1.key", { content := "node-priv", perm := 0o600 }),
                              ("dd/n1.cert", { content := "cert:node-pub:n1:n1", perm := 0o600 })]
                  dirs := [] }
          log := [Event.genKeyPair, Event.genHostCert,
                  Event.fileWrite "dd/n1.key", Event.fileWrite "dd/n1.cert"] }) := by
  have h := (initKeys_generate_persist_readback envW a1v "n1" "dd" w0 (by decide)).1
    (Or.inl (by decide))
  exact h

/-- C4 (amended): on a first start (both CAs absent) whose token map
iterates as a decodable prefix, then a malformed token, `Init` aborts
with the wrapped decode error before any node-identity work — no key
pair or host certificate is generated and the node key/cert files are
untouched — but the tokens decoded before the failing entry have
already been persisted (no rollback). -/
theorem token_decode_aborts_before_identity (env : Env) (cfg : InitConfig) (w : World)
    (good : List (String × String)) (f t : String) (rest : List (String × String))
    (gl : List (String × String × Nat)) (e : Err)
    (hA : cfg.AuthDomain ≠ "") (hD : cfg.DataDir ≠ "")
    (hdir : cfg.DataDir ∉ w.fs.dirs) (hlock : cfg.AuthDomain ∉ w.locks)
    (hhf : w.backend.hostCAFault = none) (huf : w.backend.userCAFault = none)
    (hh : w.backend.hostCA = none) (hu : w.backend.userCA = none)
    (hcfgH : cfg.HostCA = none) (hsk : cfg.SecretKey = "")
    (hs : lookupFile w.fs.entries (secretKeyPath cfg.DataDir) = none)
    (htoks : cfg.AllowedTokens = good ++ (f, t) :: rest)
    (hgood : decodeTokenList env env.freshSecretKey good = Except.ok gl)
    (hbad : env.decodeSID t env.freshSecretKey = Except.error e)
    (hlog : w.log = []) :
    ∃ w', Init env cfg w = (Except.error (Failure.err (Err.wrap e)), w') ∧
      w'.backend.tokens = w.backend.tokens ++ gl ∧
      Event.genKeyPair ∉ w'.log ∧ Event.genHostCert ∉ w'.log ∧
      lookupFile w'.fs.entries (keysPath cfg.FQDN cfg.DataDir).1 =
        lookupFile w.fs.entries (keysPath cfg.FQDN cfg.DataDir).1 ∧
      lookupFile w'.fs.entries (keysPath cfg.FQDN cfg.DataDir).2 =
        lookupFile w.fs.entries (keysPath cfg.FQDN cfg.DataDir).2 := by
  have hrun : Init env cfg w =
      (Except.error (Failure.err (Err.wrap e)),
        { w with
          backend := { w.backend with
                       hostCA := some env.freshHostCA, userCA := some env.freshUserCA,
                       tokens := w.backend.tokens ++ gl },
          fs := { entries := setFile w.fs.entries (secretKeyPath cfg.DataDir)
                    ⟨env.freshSecretKey, 0o600⟩,
                  dirs := cfg.DataDir :: w.fs.dirs },
          locks := w.locks,
          log := w.log ++ [Event.mkdir cfg.DataDir, Event.lockAcquired cfg.AuthDomain,
            Event.genSecretKey, Event.fileWrite (secretKeyPath cfg.DataDir),
            Event.resetHostCA, Event.resetUserCA] ++
            (Event.firstStartProvisioning ::
              gl.map (fun x => Event.tokenUpsert x.1 x.2.1)) ++
            [Event.lockReleased cfg.AuthDomain] }) := by
    unfold Init
    simp [hA, hD, hdir, hlock, hsk, mkdirAll_apply, acquireLock_apply, withRelease_apply,
      InitSecret_of_absent_generated, hs, hostCABlock_of_absent_generated, hh, hhf, hcfgH,
      userCABlock_of_absent_generated, hu, huf,
      firstStartProvision_run_fail env ⟨env.freshSecretKey⟩ cfg _ good f t rest gl e htoks
        hgood hbad,
      List.erase_cons_head]
  refine ⟨_, hrun, rfl, ?_, ?_, ?_, ?_⟩
  · simp [hlog, List.mem_append]
  · simp [hlog, List.mem_append]
  · show lookupFile (setFile w.fs.entries (secretKeyPath cfg.DataDir) ⟨env.freshSecretKey, 0o600⟩)
      (keysPath cfg.FQDN cfg.DataDir).1 = _
    rw [lookupFile_setFile_ne _ _ _ _ (keyPath_ne_secretPath cfg.FQDN cfg.DataDir cfg.DataDir)]
  · show lookupFile (setFile w.fs.entries (secretKeyPath cfg.DataDir) ⟨env.freshSecretKey, 0o600⟩)
      (keysPath cfg.FQDN cfg.DataDir).2 = _
    rw [lookupFile_setFile_ne _ _ _ _ (certPath_ne_secretPath cfg.FQDN cfg.DataDir cfg.DataDir)]

theorem token_decode_aborts_before_identity_witness :
    ∃ w', Init envW cfgC4 w0 = (Except.error (Failure.err (Err.wrap (Err.decodeErr "tokB"))), w') ∧
      w'.backend.tokens = w0.backend.tokens ++ [("pid-tokA", "n2", 600)] ∧
      Event.genKeyPair ∉ w'.log ∧ Event.genHostCert ∉ w'.log ∧
      lookupFile w'.fs.entries (keysPath cfgC4.FQDN cfgC4.DataDir).1 =
        lookupFile w0.fs.entries (keysPath cfgC4.FQDN cfgC4.DataDir).1 ∧
      lookupFile w'.fs.entries (keysPath cfgC4.FQDN cfgC4.DataDir).2 =
        lookupFile w0.fs.entries (keysPath cfgC4.FQDN cfgC4.DataDir).2 :=
  token_decode_aborts_before_identity envW cfgC4 w0 [("n2", "tokA")] "n4" "tokB" []
    [("pid-tokA", "n2", 600)] (Err.decodeErr "tokB") (by decide) (by decide) (by decide)
    (by decide) (by decide) (by decide) (by decide) (by decide) (by decide) (by decide)
    (by decide) (by decide) (by decide) (by decide) (by decide)

/-- C10: `Init`'s up-front emptiness checks cover only `AuthDomain`
and `DataDir`.  With an empty `FQDN` but valid `AuthDomain`/`DataDir`
on a first start, `Init` creates the data directory, acquires the
cluster lock, generates and persists the secret, generates both CAs,
applies the first-start provisioning — and only then fails inside
`InitKeys` with the empty-fqdn error; all of that already-persisted
state remains on disk and in the backend (and the lock is released). -/
theorem init_empty_fqdn_fails_late_state_persists (env : Env) (cfg : InitConfig) (w : World)
    (dl : List (String × String × Nat))
    (hF : cfg.FQDN = "") (hA : cfg.AuthDomain ≠ "") (hD : cfg.DataDir ≠ "")
    (hdir : cfg.DataDir ∉ w.fs.dirs) (hlock : cfg.AuthDomain ∉ w.locks)
    (hhf : w.backend.hostCAFault = none) (huf : w.backend.userCAFault = none)
    (hh : w.backend.hostCA = none) (hu : w.backend.userCA = none)
    (hcfgH : cfg.HostCA = none) (hsk : cfg.SecretKey = "")
    (hs : lookupFile w.fs.entries (secretKeyPath cfg.DataDir) = none)
    (hdec : decodeTokenList env env.freshSecretKey cfg.AllowedTokens = Except.ok dl) :
    ∃ w', Init env cfg w =
        (Except.error (Failure.err (Err.errorf "fqdn can not be empty")), w') ∧
      cfg.DataDir ∈ w'.fs.dirs ∧
      Event.lockAcquired cfg.AuthDomain ∈ w'.log ∧
      lookupFile w'.fs.entries (secretKeyPath cfg.DataDir) =
        some ⟨env.freshSecretKey, 0o600⟩ ∧
      w'.backend.hostCA = some env.freshHostCA ∧
      w'.backend.userCA = some env.freshUserCA ∧
      w'.backend.tokens = w.backend.tokens ++ dl ∧
      w'.backend.remoteCerts = w.backend.remoteCerts ++
        cfg.TrustedAuthorities.map (fun rc => (rc, 0)) ∧
      w'.locks = w.locks := by
  have hrun : Init env cfg w =
      (Except.error (Failure.err (Err.errorf "fqdn can not be empty")),
        { w with
          backend := { w.backend with
                       hostCA := some env.freshHostCA, userCA := some env.freshUserCA,
                       tokens := w.backend.tokens ++ dl,
                       remoteCerts := w.backend.remoteCerts ++
                         cfg.TrustedAuthorities.map (fun rc => (rc, 0)) },
          fs := { entries := setFile w.fs.entries (secretKeyPath cfg.DataDir)
                    ⟨env.freshSecretKey, 0o600⟩,
                  dirs := cfg.DataDir :: w.fs.dirs },
          locks := w.locks,
          log := w.log ++ [Event.mkdir cfg.DataDir, Event.lockAcquired cfg.AuthDomain,
            Event.genSecretKey, Event.fileWrite (secretKeyPath cfg.DataDir),
            Event.resetHostCA, Event.resetUserCA] ++
            (Event.firstStartProvisioning ::
              (dl.map (fun x => Event.tokenUpsert x.1 x.2.1) ++
               cfg.TrustedAuthorities.map (fun rc => Event.remoteCertUpsert rc.fqdn))) ++
            [Event.lockReleased cfg.AuthDomain] }) := by
    unfold Init
    simp [hA, hD, hdir, hlock, hsk, hF, mkdirAll_apply, acquireLock_apply, withRelease_apply,
      InitSecret_of_absent_generated, hs, hostCABlock_of_absent_generated, hh, hhf, hcfgH,
      userCABlock_of_absent_generated, hu, huf,
      firstStartProvision_run env ⟨env.freshSecretKey⟩ cfg _ dl hdec,
      InitKeys_of_empty_fqdn, List.erase_cons_head]
  refine ⟨_, hrun, by simp, by simp [List.mem_append], lookupFile_setFile_self _ _ _,
    rfl, rfl, rfl, rfl, rfl⟩

theorem init_empty_fqdn_fails_late_state_persists_witness :
    ∃ w', Init envW { cfg1 with FQDN := "" } w0 =
        (Except.error (Failure.err (Err.errorf "fqdn can not be empty")), w') ∧
      ({ cfg1 with FQDN := "" } : InitConfig).DataDir ∈ w'.fs.dirs ∧
      Event.lockAcquired ({ cfg1 with FQDN := "" } : InitConfig).AuthDomain ∈ w'.log ∧
      lookupFile w'.fs.entries (secretKeyPath ({ cfg1 with FQDN := "" } : InitConfig).DataDir) =
        some ⟨envW.freshSecretKey, 0o600⟩ ∧
      w'.backend.hostCA = some envW.freshHostCA ∧
      w'.backend.userCA = some envW.freshUserCA ∧
      w'.backend.tokens = w0.backend.tokens ++ [("pid-tokA", "n2", 600)] ∧
      w'.backend.remoteCerts = w0.backend.remoteCerts ++
        ({ cfg1 with FQDN := "" } : InitConfig).TrustedAuthorities.map (fun rc => (rc, 0)) ∧
      w'.locks = w0.locks :=
  init_empty_fqdn_fails_late_state_persists envW { cfg1 with FQDN := "" } w0
    [("pid-tokA", "n2", 600)] (by decide) (by decide) (by decide) (by decide) (by decide)
    (by decide) (by decide) (by decide) (by decide) (by decide) (by decide) (by decide)
    (by decide)

end TP
